import Mathlib

/-
Verification development for the network-slicing QoS simulator.

The three slice engines (eMBB, URLLC, mMTC), the traffic generator and the
backend simulation loop are embedded shallowly: Python dict-shaped packets
become a record of optional fields, the global `random` generator becomes an
explicit oracle of draw streams, raised `OverflowError`s become `Except`
values, and each engine's `process_batch` becomes a pure state transformer.
All numeric engine state is over `ℚ` (exact); the traffic generator, whose
`wave` pattern uses `sin`, is over `ℝ`.
-/

set_option maxHeartbeats 1000000

namespace NetSlice

/-- Packets travel as Python dicts; we model exactly the keys the engines
read, each optional to reflect `dict.get` with a default.  `pcount` models
the key "count" and `aggregated` the key "aggregated", both written only by
the mMTC aggregator. -/
structure Pkt where
  packet_id : Option String := none
  device_id : Option String := none
  size : Option Nat := none
  priority : Option Nat := none
  pcount : Option Nat := none
  aggregated : Bool := false
deriving DecidableEq

/-- Deterministic stand-in for Python's global RNG.  The k-th random draw of a
call is read from these streams: `q` feeds `random.uniform`, `fallbackName`
the f-string default device id, `choiceIdx` feeds `random.choice`. -/
structure Oracle where
  q : Nat → ℚ
  fallbackName : Nat → String
  choiceIdx : Nat → Nat

/-- random.uniform a b: some value of [a, b]; the oracle draw is clamped into
the range. -/
def udraw (a b x : ℚ) : ℚ := min b (max a x)

/-- random.randint a b on naturals, oracle draw clamped into range. -/
def idraw (a b x : ℕ) : ℕ := min b (max a x)

/-- The aggregate-rate formula every engine uses:
`(processed - bad) / processed * 100` when processed > 0, else 0. -/
def rate100 (processed bad : ℕ) : ℚ :=
  if 0 < processed then (((processed : ℚ) - (bad : ℚ)) / (processed : ℚ)) * 100 else 0

/-- deque with maxlen 1000: append, evicting the oldest beyond capacity. -/
def histAppend {α : Type} (h : List α) (x : α) : List α :=
  let h2 := h ++ [x]
  if 1000 < h2.length then h2.drop (h2.length - 1000) else h2

/-- Python `min(xs) if xs else 0`. -/
def listMin : List ℚ → ℚ
  | [] => 0
  | x :: xs => xs.foldl min x

/-- Python `max(xs) if xs else 0`. -/
def listMax : List ℚ → ℚ
  | [] => 0
  | x :: xs => xs.foldl max x

/-- np.mean with the source's `if xs else 0` guard. -/
def listAvg (l : List ℚ) : ℚ := if l.length = 0 then 0 else l.sum / (l.length : ℚ)

namespace EMBB

/-! The eMBB (high-throughput) QoS engine, from src/slices/embb/main.py. -/

def queue_size : ℕ := 10000
def max_latency : ℚ := 200
def min_throughput : ℚ := 100
def max_drop_rate : ℚ := 1/2
def max_jitter : ℚ := 50

/-- One per-packet result dict appended to `results`. -/
structure PRes where
  packet_id : Option String
  latency : ℚ
  throughput : ℚ
  drop_rate : ℚ
  jitter : ℚ
  qos_satisfied : Bool
  priority : ℕ
  resource_utilization : ℚ
deriving DecidableEq

/-- The `batch_stats` dict returned by `EMBBQoSEngine.process_batch`.  The
latency median and np.std of the metrics block are not carried (np.std is an
irrational square root; no claim refers to either). -/
structure Stats where
  slice_type : String
  packets_processed : ℕ
  packets_dropped : ℕ
  total_processed : ℕ
  qos_violations : ℕ
  queue_length : ℕ
  lat_min : ℚ
  lat_max : ℚ
  lat_avg : ℚ
  thr_min : ℚ
  thr_max : ℚ
  thr_avg : ℚ
  dr_avg : ℚ
  jitter : ℚ
  resource_utilization : ℚ
  success_rate : ℚ
  qos_compliance_rate : ℚ
  detailed_results : List PRes
deriving DecidableEq

/-- Mutable state of `EMBBQoSEngine`. -/
structure State where
  queue : List Pkt
  processed_packets : ℕ
  dropped_packets : ℕ
  metrics_history : List Stats
  qos_violations : ℕ
  resource_utilization : ℚ
  last_latency : ℚ
  latency_jitter : ℚ
deriving DecidableEq

def init : State := ⟨[], 0, 0, [], 0, 0, 0, 0⟩

/-- EMBBQoSEngine.enqueue_packet: drop when full, else append. -/
def enqueue_packet (s : State) (p : Pkt) : Bool × State :=
  if queue_size ≤ s.queue.length then
    (false, { s with dropped_packets := s.dropped_packets + 1 })
  else
    (true, { s with queue := s.queue ++ [p] })

/-- `_calculate_latency`: uniform(20,100) + occupancy*80 + uniform(5,30),
capped at 1.2 * max_latency. -/
def calc_latency (s : State) (x1 x2 : ℚ) : ℚ :=
  let base := udraw 20 100 x1
  let qd := ((s.queue.length : ℚ) / (queue_size : ℚ)) * 80
  let prop := udraw 5 30 x2
  min (base + qd + prop) (max_latency * (12/10))

/-- `_calculate_throughput`. -/
def calc_throughput (s : State) (packet_size : ℕ) (x : ℚ) : ℚ :=
  let bandwidth := udraw 500 1000 x
  let transmission_time := ((packet_size : ℚ) * 8) / (bandwidth * 1000000)
  let total_time := s.last_latency / 1000 + transmission_time
  let thr := if 0 < total_time then ((packet_size : ℚ) * 8) / (total_time * 1000000)
             else bandwidth
  max 0 (min thr 1000)

/-- `_calculate_drop_rate`. -/
def calc_drop_rate (s : State) (x : ℚ) : ℚ :=
  let base := udraw (1/100) (3/10) x
  let u := (s.queue.length : ℚ) / (queue_size : ℚ)
  min (base * (1 + u * 2)) (max_drop_rate * 2)

/-- `_calculate_jitter`. -/
def calc_jitter (s : State) (cur : ℚ) : ℚ :=
  if s.last_latency = 0 then 0 else min |cur - s.last_latency| (max_jitter * 2)

/-- Accumulator of the per-packet loop of process_batch: the growing result
and metric lists, the engine state, and the next oracle draw index. -/
structure Acc where
  results : List PRes
  lats : List ℚ
  thrs : List ℚ
  drs : List ℚ
  state : State
  k : ℕ
deriving DecidableEq

/-- Body of the per-packet loop after a successful enqueue; `s1` is the state
with the packet already appended. -/
def admitBody (o : Oracle) (a : Acc) (p : Pkt) (s1 : State) : Acc :=
  let latency := calc_latency s1 (o.q a.k) (o.q (a.k + 1))
  let throughput := calc_throughput s1 (p.size.getD 1000) (o.q (a.k + 2))
  let drop_rate := calc_drop_rate s1 (o.q (a.k + 3))
  let jitter := calc_jitter s1 latency
  let utilization := (s1.queue.length : ℚ) / (queue_size : ℚ)
  let qos := decide (latency ≤ max_latency) && decide (min_throughput ≤ throughput) &&
    decide (drop_rate ≤ max_drop_rate) && decide (jitter ≤ max_jitter)
  let s2 : State :=
    { s1 with
      processed_packets := s1.processed_packets + 1,
      qos_violations := s1.qos_violations + (if qos then 0 else 1),
      last_latency := latency,
      latency_jitter := jitter,
      resource_utilization := utilization }
  { results := a.results ++
      [⟨p.packet_id, latency, throughput, drop_rate, jitter, qos, p.priority.getD 5,
        utilization⟩],
    lats := a.lats ++ [latency],
    thrs := a.thrs ++ [throughput],
    drs := a.drs ++ [drop_rate],
    state := s2,
    k := a.k + 4 }

/-- One iteration of the `for packet in packets` loop. -/
def step (o : Oracle) (a : Acc) (p : Pkt) : Acc :=
  match enqueue_packet a.state p with
  | (false, s1) => { a with state := s1 }
  | (true, s1) => admitBody o a p s1

def mkAcc (s : State) : Acc := ⟨[], [], [], [], s, 0⟩

/-- EMBBQoSEngine.process_batch. -/
def process_batch (o : Oracle) (s : State) (packets : List Pkt) : Stats × State :=
  let n := min packets.length (s.queue.length + packets.length)
  let a := (packets.take n).foldl (step o) (mkAcc s)
  let s1 := a.state
  let stats : Stats :=
    { slice_type := "embb",
      packets_processed := a.results.length,
      packets_dropped := s1.dropped_packets,
      total_processed := s1.processed_packets,
      qos_violations := s1.qos_violations,
      queue_length := s1.queue.length,
      lat_min := listMin a.lats, lat_max := listMax a.lats, lat_avg := listAvg a.lats,
      thr_min := listMin a.thrs, thr_max := listMax a.thrs, thr_avg := listAvg a.thrs,
      dr_avg := listAvg a.drs,
      jitter := s1.latency_jitter,
      resource_utilization := s1.resource_utilization,
      success_rate := rate100 s1.processed_packets s1.dropped_packets,
      qos_compliance_rate := rate100 s1.processed_packets s1.qos_violations,
      detailed_results := a.results.take 100 }
  (stats, { s1 with metrics_history := histAppend s1.metrics_history stats })

/-- A sequence of process_batch calls (each call with its own oracle). -/
def runBatches : List (Oracle × List Pkt) → State → State
  | [], s => s
  | (o, b) :: rest, s => runBatches rest (process_batch o s b).2

end EMBB

namespace URLLC

/-! The URLLC (low-latency) QoS engine, from src/slices/urllc/main.py. -/

def queue_size : ℕ := 5000
def max_latency : ℚ := 10
def min_throughput : ℚ := 50
def max_drop_rate : ℚ := 1/1000
def max_jitter : ℚ := 5
def redundancy_enabled : Bool := true
/-- CONFIG retry_policy is the constant "aggressive", so the retransmission
branch is always enabled. -/
def aggressive_retry : Bool := true

/-- URLLCPriorityQueue.  `heap` holds the entries (negated priority, FIFO
counter, packet) exactly as `push` builds them; heapq's observable behaviour
is push = insert, pop = remove the least entry in (negPriority, counter)
order, which `popMin` below selects directly. -/
structure PQ where
  heap : List (ℤ × ℕ × Pkt)
  max_size : ℕ
  counter : ℕ
deriving DecidableEq

/-- URLLCPriorityQueue.push; `Except.error` models the raised OverflowError. -/
def PQ.push (q : PQ) (p : Pkt) : Except Unit PQ :=
  if q.max_size ≤ q.heap.length then Except.error ()
  else Except.ok
    { q with
      heap := q.heap ++ [(-(p.priority.getD 5 : ℤ), q.counter, p)],
      counter := q.counter + 1 }

/-- The order in which heapq yields entries: lexicographic on
(negated priority, counter). -/
def keyLe (a b : ℤ × ℕ × Pkt) : Prop := a.1 < b.1 ∨ (a.1 = b.1 ∧ a.2.1 ≤ b.2.1)

instance (a b : ℤ × ℕ × Pkt) : Decidable (keyLe a b) := by
  unfold keyLe
  exact inferInstance

/-- Select and remove the least entry (what heapq.heappop observably does). -/
def popMin : List (ℤ × ℕ × Pkt) → Option ((ℤ × ℕ × Pkt) × List (ℤ × ℕ × Pkt))
  | [] => none
  | e :: rest =>
    match popMin rest with
    | none => some (e, [])
    | some (m, r) => if keyLe e m then some (e, rest) else some (m, e :: r)

/-- URLLCPriorityQueue.pop: None on an empty heap, else the least entry's
packet. -/
def PQ.pop (q : PQ) : Option Pkt × PQ :=
  match popMin q.heap with
  | none => (none, q)
  | some (e, r) => (some e.2.2, { q with heap := r })

/-- One per-packet result dict. -/
structure PRes where
  packet_id : Option String
  latency : ℚ
  throughput : ℚ
  drop_rate : ℚ
  jitter : ℚ
  qos_satisfied : Bool
  priority : ℕ
  resource_utilization : ℚ
  retransmitted : Bool
deriving DecidableEq

/-- The `batch_stats` dict of URLLCQoSEngine.process_batch (latency median and
np.std omitted as in the eMBB model). -/
structure Stats where
  slice_type : String
  packets_processed : ℕ
  packets_dropped : ℕ
  packets_retransmitted : ℕ
  total_processed : ℕ
  qos_violations : ℕ
  queue_length : ℕ
  lat_min : ℚ
  lat_max : ℚ
  lat_avg : ℚ
  thr_min : ℚ
  thr_max : ℚ
  thr_avg : ℚ
  dr_avg : ℚ
  reliability_index : ℚ
  qos_compliance_rate : ℚ
  detailed_results : List PRes
deriving DecidableEq

/-- Mutable state of URLLCQoSEngine; the redundancy cache is the dict keyed by
packet id. -/
structure State where
  priority_queue : PQ
  processed_packets : ℕ
  dropped_packets : ℕ
  retransmitted_packets : ℕ
  metrics_history : List Stats
  qos_violations : ℕ
  resource_utilization : ℚ
  last_latency : ℚ
  redundancy_cache : List (String × Pkt)
deriving DecidableEq

def init : State := ⟨⟨[], queue_size, 0⟩, 0, 0, 0, [], 0, 0, 0, []⟩

/-- Python truthiness of the optional packet_id string. -/
def truthy : Option String → Bool
  | none => false
  | some s => s != ""

/-- dict assignment `cache[k] = p`. -/
def cacheInsert : List (String × Pkt) → String → Pkt → List (String × Pkt)
  | [], k, p => [(k, p)]
  | (k0, p0) :: rest, k, p =>
    if k0 = k then (k, p) :: rest else (k0, p0) :: cacheInsert rest k p

/-- URLLCQoSEngine.enqueue_packet: push (dropping and counting on overflow),
then store the packet in the redundancy cache when it has a truthy id. -/
def enqueue_packet (s : State) (p : Pkt) (with_redundancy : Bool) : Bool × State :=
  match s.priority_queue.push p with
  | Except.error _ => (false, { s with dropped_packets := s.dropped_packets + 1 })
  | Except.ok q =>
    let cache :=
      if with_redundancy && redundancy_enabled && truthy p.packet_id then
        cacheInsert s.redundancy_cache (p.packet_id.getD "") p
      else s.redundancy_cache
    (true, { s with priority_queue := q, redundancy_cache := cache })

/-- `_handle_retransmission`: re-push the cached copy when the popped packet's
id is truthy and cached; a full queue is only logged.  The Bool reports
whether the copy was actually re-enqueued (ghost information used by the
queue-length accounting; the Python method returns None). -/
def handle_retransmission (s : State) (p : Pkt) : Bool × State :=
  match p.packet_id with
  | none => (false, s)
  | some pid =>
    if pid = "" then (false, s)
    else
      match s.redundancy_cache.lookup pid with
      | none => (false, s)
      | some cached =>
        match s.priority_queue.push cached with
        | Except.error _ => (false, s)
        | Except.ok q => (true, { s with priority_queue := q })

/-- `_calculate_ultra_low_latency`. -/
def calc_ultra_low_latency (s : State) (x1 x2 : ℚ) : ℚ :=
  let base := udraw (1/2) 3 x1
  let qd := ((s.priority_queue.heap.length : ℚ) / (queue_size : ℚ)) * 4
  let prop := udraw 2 6 x2
  min (base + qd + prop) (max_latency * (3/2))

/-- `_calculate_throughput`. -/
def calc_throughput (s : State) (packet_size : ℕ) (x : ℚ) : ℚ :=
  let bandwidth := udraw 50 150 x
  let transmission_time := ((packet_size : ℚ) * 8) / (bandwidth * 1000000)
  let total_time := s.last_latency / 1000 + transmission_time
  let thr := if 0 < total_time then ((packet_size : ℚ) * 8) / (total_time * 1000000)
             else bandwidth
  max 0 (min thr 200)

/-- `_calculate_ultra_reliable_drop_rate`. -/
def calc_ultra_reliable_drop_rate (s : State) (x : ℚ) : ℚ :=
  let base := udraw (1/10000) (5/10000) x
  let u := (s.priority_queue.heap.length : ℚ) / (queue_size : ℚ)
  min (base * (1 + u)) (2/1000)

/-- `_calculate_jitter`. -/
def calc_jitter (s : State) (cur : ℚ) : ℚ :=
  if s.last_latency = 0 then 0 else min |cur - s.last_latency| 10

/-- Loop accumulator; `retransOk` is a ghost counter of the retransmissions
that were successfully re-enqueued during the call (not engine state). -/
structure Acc where
  results : List PRes
  lats : List ℚ
  thrs : List ℚ
  drs : List ℚ
  state : State
  k : ℕ
  retransOk : ℕ
deriving DecidableEq

/-- Tail of the admission body, after the metrics and the QoS check have been
computed: the retransmission branch, the counter updates and the result
record. -/
def admitFinish (a : Acc) (qp : Pkt) (s2 : State)
    (latency throughput drop_rate jitter : ℚ) (qos : Bool) : Acc :=
  let utilization := (s2.priority_queue.heap.length : ℚ) / (queue_size : ℚ)
  let rr := if !qos && aggressive_retry then handle_retransmission s2 qp else (false, s2)
  let s3 := rr.2
  let s4 : State :=
    { s3 with
      retransmitted_packets :=
        s3.retransmitted_packets + (if !qos && aggressive_retry then 1 else 0),
      qos_violations := s3.qos_violations + (if qos then 0 else 1),
      processed_packets := s3.processed_packets + 1,
      last_latency := latency,
      resource_utilization := utilization }
  { results := a.results ++
      [⟨qp.packet_id, latency, throughput, drop_rate, jitter, qos, qp.priority.getD 8,
        utilization, !qos⟩],
    lats := a.lats ++ [latency],
    thrs := a.thrs ++ [throughput],
    drs := a.drs ++ [drop_rate],
    state := s4,
    k := a.k + 4,
    retransOk := a.retransOk + (if rr.1 then 1 else 0) }

/-- Loop body after a successful enqueue and pop: `qp` is the popped packet
and `s2` the state after the pop. -/
def admitBody (o : Oracle) (a : Acc) (qp : Pkt) (s2 : State) : Acc :=
  let latency := calc_ultra_low_latency s2 (o.q a.k) (o.q (a.k + 1))
  let throughput := calc_throughput s2 (qp.size.getD 100) (o.q (a.k + 2))
  let drop_rate := calc_ultra_reliable_drop_rate s2 (o.q (a.k + 3))
  let jitter := calc_jitter s2 latency
  let qos := decide (latency ≤ max_latency) && decide (min_throughput ≤ throughput) &&
    decide (drop_rate ≤ max_drop_rate) && decide (jitter ≤ max_jitter)
  admitFinish a qp s2 latency throughput drop_rate jitter qos

/-- One iteration of the `for packet in packets` loop.  (The source's
`if not queued_packet: continue` also skips a popped empty dict, a Python
truthiness corner no packet of this system exercises.) -/
def step (o : Oracle) (a : Acc) (p : Pkt) : Acc :=
  match enqueue_packet a.state p true with
  | (false, s1) => { a with state := s1 }
  | (true, s1) =>
    match s1.priority_queue.pop with
    | (none, pq2) => { a with state := { s1 with priority_queue := pq2 } }
    | (some qp, pq2) => admitBody o a qp { s1 with priority_queue := pq2 }

def mkAcc (s : State) : Acc := ⟨[], [], [], [], s, 0, 0⟩

/-- URLLCQoSEngine.process_batch; the third component is the ghost count of
successful re-enqueues during the call. -/
def process_batch (o : Oracle) (s : State) (packets : List Pkt) : Stats × State × ℕ :=
  let a := packets.foldl (step o) (mkAcc s)
  let s1 := a.state
  let stats : Stats :=
    { slice_type := "urllc",
      packets_processed := a.results.length,
      packets_dropped := s1.dropped_packets,
      packets_retransmitted := s1.retransmitted_packets,
      total_processed := s1.processed_packets,
      qos_violations := s1.qos_violations,
      queue_length := s1.priority_queue.heap.length,
      lat_min := listMin a.lats, lat_max := listMax a.lats, lat_avg := listAvg a.lats,
      thr_min := listMin a.thrs, thr_max := listMax a.thrs, thr_avg := listAvg a.thrs,
      dr_avg := listAvg a.drs,
      reliability_index := rate100 s1.processed_packets s1.dropped_packets,
      qos_compliance_rate := rate100 s1.processed_packets s1.qos_violations,
      detailed_results := a.results.take 100 }
  (stats, { s1 with metrics_history := histAppend s1.metrics_history stats }, a.retransOk)

/-- A sequence of process_batch calls. -/
def runBatches : List (Oracle × List Pkt) → State → State
  | [], s => s
  | (o, b) :: rest, s => runBatches rest (process_batch o s b).2.1

end URLLC

namespace MMTC

/-! The mMTC (massive-device) QoS engine, from src/slices/mmtc/main.py. -/

def queue_size : ℕ := 100000
def device_limit : ℕ := 100000
def max_latency : ℚ := 1000
def min_throughput : ℚ := 10
def max_drop_rate : ℚ := 2
def aggregation_enabled : Bool := true

/-- A DeviceRecord of the registry.  The wall-clock fields (`registered_at`
and the registry's `device_last_seen` map) drive no control flow and are not
modelled (real time is outside the embedding). -/
structure Device where
  id : String
  dtype : String
  packets_sent : ℕ
  status : String
deriving DecidableEq

def deviceTypes : List String := ["sensor", "actuator", "gateway"]

/-- DeviceRegistry: an insertion-ordered dict of devices plus the capacity the
constructor received (the engine constructs it with `device_limit`). -/
structure Registry where
  devices : List (String × Device)
  max_devices : ℕ
deriving DecidableEq

/-- DeviceRegistry.register_or_get_device; `Except.error` models the raised
OverflowError.  Returns the advanced draw index: random.choice is consumed
only when a new device is created. -/
def register_or_get_device (o : Oracle) (k : ℕ) (r : Registry) (did : String) :
    Except Unit (Device × Registry × ℕ) :=
  match r.devices.lookup did with
  | some d => Except.ok (d, r, k)
  | none =>
    if r.max_devices ≤ r.devices.length then Except.error ()
    else
      let d : Device := ⟨did, deviceTypes.getD (o.choiceIdx k % 3) "sensor", 0, "active"⟩
      Except.ok (d, { r with devices := r.devices ++ [(did, d)] }, k + 1)

/-- One per-packet result dict. -/
structure PRes where
  packet_id : Option String
  device_id : String
  latency : ℚ
  throughput : ℚ
  drop_rate : ℚ
  jitter : ℚ
  qos_satisfied : Bool
  device_type : String
  resource_utilization : ℚ
deriving DecidableEq

/-- The `batch_stats` dict of MMTCQoSEngine.process_batch (latency median and
np.std omitted as in the eMBB model). -/
structure Stats where
  slice_type : String
  packets_processed : ℕ
  packets_dropped : ℕ
  packets_aggregated : ℕ
  total_processed : ℕ
  qos_violations : ℕ
  queue_length : ℕ
  active_devices : ℕ
  devices_in_batch : ℕ
  device_distribution : List (String × ℕ)
  lat_min : ℚ
  lat_max : ℚ
  lat_avg : ℚ
  thr_min : ℚ
  thr_max : ℚ
  thr_avg : ℚ
  dr_avg : ℚ
  success_rate : ℚ
  qos_compliance_rate : ℚ
  detailed_results : List PRes
deriving DecidableEq

/-- Mutable state of MMTCQoSEngine. -/
structure State where
  queue : List Pkt
  device_registry : Registry
  processed_packets : ℕ
  dropped_packets : ℕ
  aggregated_packets : ℕ
  metrics_history : List Stats
  qos_violations : ℕ
  resource_utilization : ℚ
  last_latency : ℚ
  device_distribution : List (String × ℕ)
deriving DecidableEq

def init : State := ⟨[], ⟨[], device_limit⟩, 0, 0, 0, [], 0, 0, 0, []⟩

/-- defaultdict(int) increment. -/
def bumpAssoc : List (String × ℕ) → String → List (String × ℕ)
  | [], k => [(k, 1)]
  | (k0, n) :: rest, k =>
    if k0 = k then (k0, n + 1) :: rest else (k0, n) :: bumpAssoc rest k

/-- `set.add`. -/
def addUnique (l : List String) (x : String) : List String :=
  if x ∈ l then l else l ++ [x]

/-- defaultdict(list) append, preserving first-seen key order. -/
def groupAdd : List (String × List Pkt) → String → Pkt → List (String × List Pkt)
  | [], did, p => [(did, [p])]
  | (d, ps) :: rest, did, p =>
    if d = did then (d, ps ++ [p]) :: rest else (d, ps) :: groupAdd rest did p

/-- Grouping step of `_aggregate_packets_by_device`; the f-string fallback
device id consumes one draw per packet (Python evaluates `dict.get` defaults
eagerly). -/
def groupStep (o : Oracle) (acc : List (String × List Pkt) × ℕ) (p : Pkt) :
    List (String × List Pkt) × ℕ :=
  (groupAdd acc.1 (p.device_id.getD (o.fallbackName acc.2)) p, acc.2 + 1)

/-- The combined record built for a device with more than one same-batch
packet; `pid` is the value of the first packet's "packet_id" entry. -/
def combinedPkt (pid did : String) (ps : List Pkt) : Pkt :=
  { packet_id := some pid,
    device_id := some did,
    size := some ((ps.map (fun p => p.size.getD 100)).sum),
    priority := none,
    pcount := some ps.length,
    aggregated := true }

/-- Second loop body of `_aggregate_packets_by_device`: combine a multi-packet
group, pass a singleton through (groups are never empty, so `++ g.2` is the
source's `append(device_packet_list[0])`).  The combined record's id is read
by plain indexing `device_packet_list[0]["packet_id"]`, which raises KeyError
when the first packet of the group lacks the key; the error carries the
aggregated-counter increments of the groups already combined (the raising
group contributes nothing: its increment comes after the record is built). -/
def aggStep (acc : List Pkt × ℕ) (g : String × List Pkt) : Except ℕ (List Pkt × ℕ) :=
  if 1 < g.2.length then
    match (g.2.headD {}).packet_id with
    | some pid =>
      Except.ok (acc.1 ++ [combinedPkt pid g.1 g.2], acc.2 + (g.2.length - 1))
    | none => Except.error acc.2
  else
    Except.ok (acc.1 ++ g.2, acc.2)

/-- The second loop of `_aggregate_packets_by_device`: fold `aggStep` over the
device groups, stopping at the first raise. -/
def aggFold : List (String × List Pkt) → List Pkt × ℕ → Except ℕ (List Pkt × ℕ)
  | [], acc => Except.ok acc
  | g :: rest, acc =>
    match aggStep acc g with
    | Except.ok acc2 => aggFold rest acc2
    | Except.error e => Except.error e

/-- `_aggregate_packets_by_device`; also returns the advanced draw index.  On
the KeyError path the carried state holds the increments applied before the
raise (the queue and every other field are untouched, since the method
mutates nothing else). -/
def aggregate_packets_by_device (o : Oracle) (s : State) (packets : List Pkt) (k : ℕ) :
    Except State (List Pkt × State × ℕ) :=
  match aggFold (packets.foldl (groupStep o) ([], k)).1 ([], 0) with
  | Except.ok ag =>
    Except.ok (ag.1,
      { s with aggregated_packets := s.aggregated_packets + ag.2 },
      (packets.foldl (groupStep o) ([], k)).2)
  | Except.error a =>
    Except.error { s with aggregated_packets := s.aggregated_packets + a }

/-- `_calculate_relaxed_latency`. -/
def calc_relaxed_latency (s : State) (x1 x2 : ℚ) : ℚ :=
  let base := udraw 50 300 x1
  let qd := ((s.queue.length : ℚ) / (queue_size : ℚ)) * 400
  let prop := udraw 100 500 x2
  min (base + qd + prop) (max_latency * (3/2))

/-- `_calculate_throughput`. -/
def calc_throughput (s : State) (packet_size : ℕ) (x : ℚ) : ℚ :=
  let bandwidth := udraw 10 100 x
  let transmission_time := ((packet_size : ℚ) * 8) / (bandwidth * 1000000)
  let total_time := s.last_latency / 1000 + transmission_time
  let thr := if 0 < total_time then ((packet_size : ℚ) * 8) / (total_time * 1000000)
             else bandwidth
  max 0 (min thr 150)

/-- `_calculate_drop_rate`. -/
def calc_drop_rate (s : State) (x : ℚ) : ℚ :=
  let base := udraw (1/2) (3/2) x
  let u := (s.queue.length : ℚ) / (queue_size : ℚ)
  min (base * (1 + u * 3)) 5

/-- `_calculate_jitter`. -/
def calc_jitter (s : State) (cur : ℚ) : ℚ :=
  if s.last_latency = 0 then 0 else min |cur - s.last_latency| 300

/-- Loop accumulator. -/
structure Acc where
  results : List PRes
  lats : List ℚ
  thrs : List ℚ
  drs : List ℚ
  devices_contacted : List String
  state : State
  k : ℕ
deriving DecidableEq

/-- Loop body after registration and a successful enqueue; `s2` holds the
packet already appended to the queue. -/
def admitBody (o : Oracle) (a : Acc) (p : Pkt) (did : String) (dev : Device)
    (s2 : State) : Acc :=
  let latency := calc_relaxed_latency s2 (o.q a.k) (o.q (a.k + 1))
  let throughput := calc_throughput s2 (p.size.getD 200) (o.q (a.k + 2))
  let drop_rate := calc_drop_rate s2 (o.q (a.k + 3))
  let jitter := calc_jitter s2 latency
  let utilization := (s2.queue.length : ℚ) / (queue_size : ℚ)
  let qos := decide (latency ≤ max_latency) && decide (min_throughput ≤ throughput) &&
    decide (drop_rate ≤ max_drop_rate)
  let s3 : State :=
    { s2 with
      qos_violations := s2.qos_violations + (if qos then 0 else 1),
      processed_packets := s2.processed_packets + 1,
      device_distribution := bumpAssoc s2.device_distribution dev.dtype,
      last_latency := latency,
      resource_utilization := utilization }
  { a with
    results := a.results ++
      [⟨p.packet_id, did, latency, throughput, drop_rate, jitter, qos, dev.dtype,
        utilization⟩],
    lats := a.lats ++ [latency],
    thrs := a.thrs ++ [throughput],
    drs := a.drs ++ [drop_rate],
    state := s3,
    k := a.k + 4 }

/-- One iteration of the `for packet in packets` loop: register the device
(dropping on registry overflow), then enqueue (dropping when the queue is
full), then process. -/
def step (o : Oracle) (a : Acc) (p : Pkt) : Acc :=
  let did := p.device_id.getD (o.fallbackName a.k)
  let k1 := a.k + 1
  match register_or_get_device o k1 a.state.device_registry did with
  | Except.error _ =>
    { a with
      state := { a.state with dropped_packets := a.state.dropped_packets + 1 },
      k := k1 }
  | Except.ok (dev, reg, k2) =>
    let s1 := { a.state with device_registry := reg }
    let dc := addUnique a.devices_contacted did
    if queue_size ≤ s1.queue.length then
      { a with
        state := { s1 with dropped_packets := s1.dropped_packets + 1 },
        devices_contacted := dc,
        k := k2 }
    else
      admitBody o { a with devices_contacted := dc, k := k2 } p did dev
        { s1 with queue := s1.queue ++ [p] }

def mkAcc (s : State) (k : ℕ) : Acc := ⟨[], [], [], [], [], s, k⟩

/-- The body of MMTCQoSEngine.process_batch after the aggregation preamble
returned: `t` is (packets to iterate, engine state, draw index). -/
def batchBody (o : Oracle) (t : List Pkt × State × ℕ) : Stats × State :=
  let a := t.1.foldl (step o) (mkAcc t.2.1 t.2.2)
  let s1 := a.state
  let stats : Stats :=
    { slice_type := "mmtc",
      packets_processed := a.results.length,
      packets_dropped := s1.dropped_packets,
      packets_aggregated := s1.aggregated_packets,
      total_processed := s1.processed_packets,
      qos_violations := s1.qos_violations,
      queue_length := s1.queue.length,
      active_devices := s1.device_registry.devices.length,
      devices_in_batch := a.devices_contacted.length,
      device_distribution := s1.device_distribution,
      lat_min := listMin a.lats, lat_max := listMax a.lats, lat_avg := listAvg a.lats,
      thr_min := listMin a.thrs, thr_max := listMax a.thrs, thr_avg := listAvg a.thrs,
      dr_avg := listAvg a.drs,
      success_rate := rate100 s1.processed_packets s1.dropped_packets,
      qos_compliance_rate := rate100 s1.processed_packets s1.qos_violations,
      detailed_results := a.results.take 100 }
  (stats, { s1 with metrics_history := histAppend s1.metrics_history stats })

/-- MMTCQoSEngine.process_batch.  `Except.error` is the KeyError raised by the
aggregation preamble escaping the method (there is no enclosing try); the
carried value is the engine state at the raise. -/
def process_batch (o : Oracle) (s : State) (packets0 : List Pkt) :
    Except State (Stats × State) :=
  match (if aggregation_enabled then aggregate_packets_by_device o s packets0 0
         else Except.ok (packets0, s, 0)) with
  | Except.ok t => Except.ok (batchBody o t)
  | Except.error e => Except.error e

/-- Engine state after a process_batch call, whether the call returned or the
KeyError escaped: the module-global engine object persists either way (the
HTTP layer turns the exception into an error response). -/
def afterBatch (o : Oracle) (s : State) (b : List Pkt) : State :=
  match process_batch o s b with
  | Except.ok r => r.2
  | Except.error e => e

/-- A sequence of process_batch calls. -/
def runBatches : List (Oracle × List Pkt) → State → State
  | [], s => s
  | (o, b) :: rest, s => runBatches rest (afterBatch o s b)

end MMTC

namespace Gen

/-! The traffic generator, from src/scheduler/generator.py.  Pattern maths is
over ℝ (the `wave` pattern uses sin); Python's float arithmetic is modelled
by exact real arithmetic. -/

/-- Oracle for the generator's random draws: one Poisson sample (support ℕ),
one Gaussian sample (support ℝ), and per-packet attribute draws `q`/`n`
indexed by packet counter and attribute slot. -/
structure GOracle where
  pois : ℕ
  gauss : ℝ
  q : ℕ → ℕ → ℚ
  n : ℕ → ℕ → ℕ

/-- Python `int(x)`: truncation toward zero. -/
noncomputable def pyInt (x : ℝ) : ℤ := if 0 ≤ x then ⌊x⌋ else ⌈x⌉

/-- The TrafficPattern.PATTERNS lambda selected by name; the dict `.get`
falls back to the constant pattern for unrecognized names.  Python float `%`
is `a - b * floor(a / b)`. -/
noncomputable def patternFn (o : GOracle) (nm : String) (t : ℝ) : ℝ :=
  if nm = "constant" then 1
  else if nm = "linear_increase" then min 1 (t / 30)
  else if nm = "burst" then (if t - 10 * (⌊t / 10⌋ : ℤ) < 2 then 3/2 else 7/10)
  else if nm = "wave" then 1 + (1/2) * Real.sin (2 * Real.pi * t / 60)
  else if nm = "poisson" then max (1/10) ((o.pois : ℝ) / 5)
  else if nm = "gaussian" then max (1/10) o.gauss
  else 1

/-- TrafficPattern.get_multiplier.  (The source's try/except arm cannot fire:
every pattern function is total here.) -/
noncomputable def get_multiplier (o : GOracle) (nm : String) (t : ℝ) : ℝ :=
  max (1/10) (patternFn o nm t)

/-- One SliceProfile.PROFILES entry (name/description strings omitted). -/
structure Profile where
  packet_size_range : ℕ × ℕ
  priority_range : ℕ × ℕ
  bandwidth_range : ℚ × ℚ
  latency_range : ℕ × ℕ
  loss_tolerance_range : ℚ × ℚ
  percentage : ℚ
deriving DecidableEq

def PROFILES : List (String × Profile) :=
  [("embb", ⟨(500, 2000), (3, 6), (100, 1000), (50, 200), (1/10, 1), 2/5⟩),
   ("urllc", ⟨(50, 300), (7, 9), (10, 100), (1, 10), (1/1000, 1/100), 3/10⟩),
   ("mmtc", ⟨(100, 500), (1, 3), (1, 50), (100, 1000), (1, 5), 3/10⟩)]

/-- The Packet dataclass (creation timestamp is wall clock and not
modelled).  `src_ip` is optional: `generate_src_ip` returns None for a slice
name outside the three known ones. -/
structure GPacket where
  packet_id : String
  slice_type : String
  size : ℕ
  priority : ℕ
  src_ip : Option String
  dst_ip : String
  bandwidth_required : ℚ
  latency_requirement : ℕ
  packet_loss_tolerance : ℚ
deriving DecidableEq

/-- RealisticIPGenerator.generate_src_ip. -/
def generate_src_ip (slice_type : String) (x1 x2 x3 : ℕ) : Option String :=
  if slice_type = "embb" then
    some ("172." ++ Nat.repr (idraw 16 31 x1) ++ "." ++ Nat.repr (idraw 0 255 x2) ++
      "." ++ Nat.repr (idraw 0 255 x3))
  else if slice_type = "urllc" then
    some ("192.168." ++ Nat.repr (idraw 0 255 x2) ++ "." ++ Nat.repr (idraw 0 255 x3))
  else if slice_type = "mmtc" then
    some ("10." ++ Nat.repr (idraw 0 255 x1) ++ "." ++ Nat.repr (idraw 0 255 x2) ++
      "." ++ Nat.repr (idraw 0 255 x3))
  else none

/-- RealisticIPGenerator.generate_dst_ip. -/
def generate_dst_ip (x1 x2 x3 : ℕ) : String :=
  "8." ++ Nat.repr (idraw 0 255 x1) ++ "." ++ Nat.repr (idraw 0 255 x2) ++ "." ++
    Nat.repr (idraw 0 255 x3)

/-- `_create_packet` (the f-string zero padding of the id is not kept). -/
def create_packet (o : GOracle) (counter : ℕ) (st : String) (pr : Profile) : GPacket :=
  { packet_id := "pkt_" ++ Nat.repr counter,
    slice_type := st,
    size := idraw pr.packet_size_range.1 pr.packet_size_range.2 (o.n counter 0),
    priority := idraw pr.priority_range.1 pr.priority_range.2 (o.n counter 1),
    src_ip := generate_src_ip st (o.n counter 2) (o.n counter 3) (o.n counter 4),
    dst_ip := generate_dst_ip (o.n counter 5) (o.n counter 6) (o.n counter 7),
    bandwidth_required :=
      udraw pr.bandwidth_range.1 pr.bandwidth_range.2 (o.q counter 0),
    latency_requirement :=
      idraw pr.latency_range.1 pr.latency_range.2 (o.n counter 8),
    packet_loss_tolerance :=
      udraw pr.loss_tolerance_range.1 pr.loss_tolerance_range.2 (o.q counter 1) }

/-- `_generate_slice_packets`: `for i in range(volume)` (empty for a
non-positive volume), advancing the global packet counter per packet. -/
def generate_slice_packets (o : GOracle) (counter : ℕ) (st : String) (pr : Profile)
    (volume : ℤ) : List GPacket :=
  (List.range volume.toNat).map (fun i => create_packet o (counter + i) st pr)

/-- AdvancedTrafficGenerator.generate_traffic_batch: the per-slice packet
lists in profile order (the generation-history side effect tracks no
correctness-relevant state). -/
noncomputable def generate_traffic_batch (o : GOracle) (counter : ℕ) (total_volume : ℤ)
    (pattern : String) (elapsed : ℝ) : List (String × List GPacket) :=
  let m := get_multiplier o pattern elapsed
  let adjusted := pyInt ((total_volume : ℝ) * m)
  (PROFILES.foldl
    (fun acc pr =>
      let vol := pyInt ((adjusted : ℝ) * (pr.2.percentage : ℝ))
      let ps := generate_slice_packets o acc.2 pr.1 pr.2 vol
      (acc.1 ++ [(pr.1, ps)], acc.2 + ps.length))
    ([], counter)).1

end Gen

namespace Backend

/-! The simulation-run life cycle, from src/backend/app.py. -/

inductive SimStatus
  | initialized
  | running
  | stopped
  | completed
  | error
deriving DecidableEq

/-- The in-memory Simulation object's status and running totals. -/
structure Sim where
  status : SimStatus
  total_traffic_generated : ℕ
  total_packets_processed : ℕ
  total_packets_dropped : ℕ
deriving DecidableEq

/-- start_simulation: unconditionally sets RUNNING (no current-status check)
and launches the loop. -/
def startSim (s : Sim) : Sim := { s with status := SimStatus.running }

/-- stop_simulation: sets STOPPED. -/
def stopSim (s : Sim) : Sim := { s with status := SimStatus.stopped }

/-- The tail of run_simulation_loop after its while loop: unconditionally
sets COMPLETED. -/
def loopFinish (s : Sim) : Sim := { s with status := SimStatus.completed }

/-- One iteration of the while body: accrue the tick's totals (the per-slice
HTTP results are abstracted into the three contributions). -/
def tick (s : Sim) (gen proc drop : ℕ) : Sim :=
  { s with
    total_traffic_generated := s.total_traffic_generated + gen,
    total_packets_processed := s.total_packets_processed + proc,
    total_packets_dropped := s.total_packets_dropped + drop }

/-- run_simulation_loop with the wall-clock deadline abstracted to a tick
budget `n`; `f` gives each tick's contributions.  The loop runs while the
status is RUNNING and time remains, then unconditionally completes. -/
def runLoop : ℕ → (ℕ → ℕ × ℕ × ℕ) → Sim → Sim
  | 0, _, s => loopFinish s
  | n + 1, f, s =>
    if s.status = SimStatus.running then
      runLoop n f (tick s (f n).1 (f n).2.1 (f n).2.2)
    else loopFinish s

end Backend

/-! Concrete instances used below as witnesses and counterexamples. -/

def c1LowPkt : Pkt := { packet_id := some "low", size := some 100, priority := some 1 }

def c1HighPkt : Pkt := { packet_id := some "hi", size := some 100, priority := some 9 }

/-- A full URLLC queue (5000 resident entries, all of priority 1). -/
def c1FullHeap : List (ℤ × ℕ × Pkt) :=
  (List.range URLLC.queue_size).map (fun i => ((-1 : ℤ), i, c1LowPkt))

def c1FullState : URLLC.State :=
  { URLLC.init with
    priority_queue := ⟨c1FullHeap, URLLC.queue_size, URLLC.queue_size⟩ }

def c4Stopped : Backend.Sim := ⟨Backend.SimStatus.stopped, 0, 0, 0⟩

def c6Oracle : Gen.GOracle := ⟨10, 1, fun _ _ => 0, fun _ _ => 0⟩

def c5Oracle : Gen.GOracle := ⟨0, 1, fun _ _ => 0, fun _ _ => 0⟩

def c10Oracle : Oracle := ⟨fun _ => 0, fun _ => "d", fun _ => 0⟩

def c10Resident : Pkt := { packet_id := some "res", size := some 100, priority := some 9 }

def c10New : Pkt := { packet_id := some "new", size := some 100, priority := some 1 }

def c10State : URLLC.State :=
  { URLLC.init with
    priority_queue := ⟨[((-9 : ℤ), 0, c10Resident)], URLLC.queue_size, 1⟩ }

def c3Pkt : Pkt := { packet_id := some "p", size := some 1000, priority := some 5 }

def c3Oracle : Oracle := ⟨fun _ => 0, fun _ => "d", fun _ => 0⟩

def c7Oracle : Oracle := ⟨fun _ => 0, fun _ => "d", fun _ => 0⟩

def c7p1 : Pkt := { packet_id := some "a1", device_id := some "dev7", size := some 10 }

def c7p2 : Pkt := { packet_id := some "a2", device_id := some "dev7", size := some 20 }

def c8Oracle : Oracle := ⟨fun _ => 0, fun _ => "d", fun _ => 0⟩

def someDev : MMTC.Device := ⟨"k", "sensor", 0, "active"⟩

/-- Distinct filler device names: i+1 copies of 'a'. -/
def bigName (i : ℕ) : String := String.mk (List.replicate (i + 1) 'a')

def bigDevs (n : ℕ) : List (String × MMTC.Device) :=
  (List.range n).map (fun i => (bigName i, someDev))

/-- An engine state whose registry is at the 100000-device cap (100001
entries - the id "k" plus 100000 fillers). -/
def c8State : MMTC.State :=
  { MMTC.init with
    device_registry := ⟨("k", someDev) :: bigDevs 100000, MMTC.device_limit⟩ }

def c8New : Pkt := { packet_id := some "x", device_id := some "b", size := some 10 }

def c8Old : Pkt := { packet_id := some "y", device_id := some "k", size := some 10 }

def c7NoId1 : Pkt := { device_id := some "dv", size := some 10 }

def c7NoId2 : Pkt := { device_id := some "dv", size := some 20 }

def c9Oracle : Oracle := ⟨fun _ => 0, fun _ => "d", fun _ => 0⟩

/-- The result of the mMTC call on an empty batch from the initial engine. -/
def c9Res : MMTC.Stats × MMTC.State :=
  MMTC.batchBody c9Oracle
    ([], { MMTC.init with aggregated_packets := MMTC.init.aggregated_packets + 0 }, 0)

/-- The result of the mMTC call on an empty batch from the initial engine,
for the C3 instance. -/
def c3Res : MMTC.Stats × MMTC.State :=
  MMTC.batchBody c3Oracle
    ([], { MMTC.init with aggregated_packets := MMTC.init.aggregated_packets + 0 }, 0)

/-! Helper lemmas. -/

lemma urllc_push_err (q : URLLC.PQ) (p : Pkt) (h : q.max_size ≤ q.heap.length) :
    URLLC.PQ.push q p = Except.error () := by
  unfold URLLC.PQ.push
  rw [if_pos h]

lemma urllc_push_ok (q : URLLC.PQ) (p : Pkt) (h : q.heap.length < q.max_size) :
    URLLC.PQ.push q p = Except.ok
      { q with
        heap := q.heap ++ [(-(p.priority.getD 5 : ℤ), q.counter, p)],
        counter := q.counter + 1 } := by
  unfold URLLC.PQ.push
  rw [if_neg (not_le.mpr h)]

lemma urllc_enqueue_full (s : URLLC.State) (p : Pkt) (w : Bool)
    (h : s.priority_queue.max_size ≤ s.priority_queue.heap.length) :
    URLLC.enqueue_packet s p w =
      (false, { s with dropped_packets := s.dropped_packets + 1 }) := by
  unfold URLLC.enqueue_packet
  rw [urllc_push_err _ _ h]

/-! eMBB step and fold lemmas. -/

lemma embb_enqueue_full (s : EMBB.State) (p : Pkt) (h : EMBB.queue_size ≤ s.queue.length) :
    EMBB.enqueue_packet s p =
      (false, { s with dropped_packets := s.dropped_packets + 1 }) := by
  unfold EMBB.enqueue_packet
  rw [if_pos h]

lemma embb_enqueue_spare (s : EMBB.State) (p : Pkt) (h : s.queue.length < EMBB.queue_size) :
    EMBB.enqueue_packet s p = (true, { s with queue := s.queue ++ [p] }) := by
  unfold EMBB.enqueue_packet
  rw [if_neg (not_le.mpr h)]

lemma embb_step_full (o : Oracle) (a : EMBB.Acc) (p : Pkt)
    (h : EMBB.queue_size ≤ a.state.queue.length) :
    EMBB.step o a p =
      { a with state := { a.state with dropped_packets := a.state.dropped_packets + 1 } } := by
  unfold EMBB.step
  rw [embb_enqueue_full _ _ h]

lemma embb_step_spare (o : Oracle) (a : EMBB.Acc) (p : Pkt)
    (h : a.state.queue.length < EMBB.queue_size) :
    EMBB.step o a p = EMBB.admitBody o a p { a.state with queue := a.state.queue ++ [p] } := by
  unfold EMBB.step
  rw [embb_enqueue_spare _ _ h]

lemma embb_step_spare2 (o : Oracle) (a : EMBB.Acc) (p : Pkt)
    (h : a.state.queue.length < EMBB.queue_size) :
    ∃ s1 : EMBB.State, EMBB.step o a p = EMBB.admitBody o a p s1 ∧
      s1.queue = a.state.queue ++ [p] ∧
      s1.processed_packets = a.state.processed_packets ∧
      s1.dropped_packets = a.state.dropped_packets ∧
      s1.qos_violations = a.state.qos_violations :=
  ⟨{ a.state with queue := a.state.queue ++ [p] }, embb_step_spare o a p h, rfl, rfl,
    rfl, rfl⟩

lemma embb_admit_spec (o : Oracle) (a : EMBB.Acc) (p : Pkt) (s1 : EMBB.State) :
    (EMBB.admitBody o a p s1).state.queue = s1.queue ∧
    (EMBB.admitBody o a p s1).state.processed_packets = s1.processed_packets + 1 ∧
    (EMBB.admitBody o a p s1).state.dropped_packets = s1.dropped_packets ∧
    (EMBB.admitBody o a p s1).results.length = a.results.length + 1 ∧
    s1.qos_violations ≤ (EMBB.admitBody o a p s1).state.qos_violations ∧
    (EMBB.admitBody o a p s1).state.qos_violations ≤ s1.qos_violations + 1 := by
  refine ⟨rfl, rfl, rfl, by simp [EMBB.admitBody], ?_, ?_⟩ <;>
    (simp only [EMBB.admitBody]; split <;> omega)

lemma embb_fold_spec (o : Oracle) (l : List Pkt) : ∀ a : EMBB.Acc,
    (a.state.queue.length ≤ EMBB.queue_size →
      (l.foldl (EMBB.step o) a).state.queue.length ≤ EMBB.queue_size) ∧
    ((l.foldl (EMBB.step o) a).state.qos_violations + a.state.processed_packets ≤
      a.state.qos_violations + (l.foldl (EMBB.step o) a).state.processed_packets) ∧
    (a.state.processed_packets ≤ (l.foldl (EMBB.step o) a).state.processed_packets) ∧
    ((l.foldl (EMBB.step o) a).results.length + a.state.processed_packets =
      a.results.length + (l.foldl (EMBB.step o) a).state.processed_packets) := by
  induction l with
  | nil =>
    intro a
    simp only [List.foldl_nil]
    exact ⟨fun h => h, le_refl _, le_refl _, trivial⟩
  | cons p l ih =>
    intro a
    simp only [List.foldl_cons]
    obtain ⟨ih1, ih2, ih3, ih4⟩ := ih (EMBB.step o a p)
    rcases lt_or_le a.state.queue.length EMBB.queue_size with hlt | hge
    · rw [embb_step_spare o a p hlt] at ih1 ih2 ih3 ih4 ⊢
      dsimp only at ih1 ih2 ih3 ih4 ⊢
      obtain ⟨hq, hp, hd, hr, hv1, hv2⟩ :=
        embb_admit_spec o a p { a.state with queue := a.state.queue ++ [p] }
      dsimp only at hq hp hd hr hv1 hv2
      refine ⟨fun _ => ih1 ?_, by omega, by omega, by omega⟩
      rw [hq]
      simp only [List.length_append, List.length_cons, List.length_nil]
      omega
    · rw [embb_step_full o a p hge] at ih1 ih2 ih3 ih4 ⊢
      dsimp only at ih1 ih2 ih3 ih4 ⊢
      exact ⟨fun h => ih1 h, by omega, ih3, by omega⟩

lemma embb_pb_take (s : EMBB.State) (b : List Pkt) :
    b.take (min b.length (s.queue.length + b.length)) = b := by
  rw [Nat.min_eq_left (Nat.le_add_left _ _), List.take_length]

/-- Stats and post-state of EMBB.process_batch in terms of the packet fold. -/
lemma embb_pb_proj (o : Oracle) (s : EMBB.State) (b : List Pkt) :
    (EMBB.process_batch o s b).2.queue =
      (b.foldl (EMBB.step o) (EMBB.mkAcc s)).state.queue ∧
    (EMBB.process_batch o s b).2.processed_packets =
      (b.foldl (EMBB.step o) (EMBB.mkAcc s)).state.processed_packets ∧
    (EMBB.process_batch o s b).2.dropped_packets =
      (b.foldl (EMBB.step o) (EMBB.mkAcc s)).state.dropped_packets ∧
    (EMBB.process_batch o s b).2.qos_violations =
      (b.foldl (EMBB.step o) (EMBB.mkAcc s)).state.qos_violations ∧
    (EMBB.process_batch o s b).1.packets_processed =
      (b.foldl (EMBB.step o) (EMBB.mkAcc s)).results.length ∧
    (EMBB.process_batch o s b).1.packets_dropped =
      (b.foldl (EMBB.step o) (EMBB.mkAcc s)).state.dropped_packets ∧
    (EMBB.process_batch o s b).1.qos_violations =
      (b.foldl (EMBB.step o) (EMBB.mkAcc s)).state.qos_violations ∧
    (EMBB.process_batch o s b).1.total_processed =
      (b.foldl (EMBB.step o) (EMBB.mkAcc s)).state.processed_packets ∧
    (EMBB.process_batch o s b).1.success_rate =
      rate100 (b.foldl (EMBB.step o) (EMBB.mkAcc s)).state.processed_packets
        (b.foldl (EMBB.step o) (EMBB.mkAcc s)).state.dropped_packets ∧
    (EMBB.process_batch o s b).1.qos_compliance_rate =
      rate100 (b.foldl (EMBB.step o) (EMBB.mkAcc s)).state.processed_packets
        (b.foldl (EMBB.step o) (EMBB.mkAcc s)).state.qos_violations := by
  unfold EMBB.process_batch
  dsimp only
  rw [embb_pb_take]
  exact ⟨rfl, rfl, rfl, rfl, rfl, rfl, rfl, rfl, rfl, rfl⟩

/-! URLLC heap, step and fold lemmas. -/

lemma keyLe_fst {a b : ℤ × ℕ × Pkt} (h : URLLC.keyLe a b) : a.1 ≤ b.1 := by
  rcases h with h | ⟨h, _⟩
  · exact le_of_lt h
  · exact le_of_eq h

lemma keyLe_of_not_keyLe {a b : ℤ × ℕ × Pkt} (h : ¬ URLLC.keyLe a b) :
    URLLC.keyLe b a := by
  unfold URLLC.keyLe at *
  push_neg at h
  obtain ⟨h1, h2⟩ := h
  rcases lt_or_eq_of_le h1 with hlt | heq
  · exact Or.inl hlt
  · exact Or.inr ⟨heq, le_of_lt (h2 heq.symm)⟩

lemma popMin_cons_isSome (e : ℤ × ℕ × Pkt) (rest : List (ℤ × ℕ × Pkt)) :
    (URLLC.popMin (e :: rest)).isSome := by
  unfold URLLC.popMin
  cases URLLC.popMin rest with
  | none => rfl
  | some mr =>
    obtain ⟨m, r⟩ := mr
    dsimp only
    split <;> rfl

lemma popMin_of_ne_nil {l : List (ℤ × ℕ × Pkt)} (h : l ≠ []) :
    ∃ m r, URLLC.popMin l = some (m, r) := by
  cases l with
  | nil => exact absurd rfl h
  | cons e rest =>
    obtain ⟨mr, hmr⟩ := Option.isSome_iff_exists.mp (popMin_cons_isSome e rest)
    exact ⟨mr.1, mr.2, by rw [hmr]⟩

lemma popMin_length : ∀ {l : List (ℤ × ℕ × Pkt)} {e r},
    URLLC.popMin l = some (e, r) → l.length = r.length + 1 := by
  intro l
  induction l with
  | nil => intro e r h; simp [URLLC.popMin] at h
  | cons x rest ih =>
    intro e r h
    unfold URLLC.popMin at h
    cases hr : URLLC.popMin rest with
    | none =>
      rw [hr] at h
      have hrest : rest = [] := by
        cases rest with
        | nil => rfl
        | cons y t =>
          have hs := popMin_cons_isSome y t
          rw [hr] at hs
          simp at hs
      simp only [Option.some.injEq, Prod.mk.injEq] at h
      obtain ⟨-, rfl⟩ := h
      simp [hrest]
    | some mr =>
      obtain ⟨m, r2⟩ := mr
      rw [hr] at h
      dsimp only at h
      split at h
      · simp only [Option.some.injEq, Prod.mk.injEq] at h
        obtain ⟨-, rfl⟩ := h
        simp
      · simp only [Option.some.injEq, Prod.mk.injEq] at h
        obtain ⟨-, rfl⟩ := h
        have := ih hr
        simp only [List.length_cons]
        omega

lemma popMin_min : ∀ {l : List (ℤ × ℕ × Pkt)} {e r},
    URLLC.popMin l = some (e, r) → ∀ x ∈ l, e.1 ≤ x.1 := by
  intro l
  induction l with
  | nil => intro e r h; simp [URLLC.popMin] at h
  | cons a rest ih =>
    intro e r h x hx
    unfold URLLC.popMin at h
    cases hr : URLLC.popMin rest with
    | none =>
      rw [hr] at h
      have hrest : rest = [] := by
        cases rest with
        | nil => rfl
        | cons y t =>
          have hs := popMin_cons_isSome y t
          rw [hr] at hs
          simp at hs
      simp only [Option.some.injEq, Prod.mk.injEq] at h
      obtain ⟨rfl, -⟩ := h
      subst hrest
      simp only [List.mem_singleton] at hx
      subst hx
      exact le_refl _
    | some mr =>
      obtain ⟨m, r2⟩ := mr
      rw [hr] at h
      dsimp only at h
      by_cases hk : URLLC.keyLe a m
      · rw [if_pos hk] at h
        simp only [Option.some.injEq, Prod.mk.injEq] at h
        obtain ⟨rfl, -⟩ := h
        rcases List.mem_cons.mp hx with rfl | hx2
        · exact le_refl _
        · exact le_trans (keyLe_fst hk) (ih hr x hx2)
      · rw [if_neg hk] at h
        simp only [Option.some.injEq, Prod.mk.injEq] at h
        obtain ⟨rfl, -⟩ := h
        rcases List.mem_cons.mp hx with rfl | hx2
        · exact keyLe_fst (keyLe_of_not_keyLe hk)
        · exact ih hr x hx2

lemma urllc_push_ok_spec {q : URLLC.PQ} {p : Pkt} {q2 : URLLC.PQ}
    (h : URLLC.PQ.push q p = Except.ok q2) :
    q.heap.length < q.max_size ∧
    q2.heap = q.heap ++ [(-(p.priority.getD 5 : ℤ), q.counter, p)] ∧
    q2.max_size = q.max_size := by
  unfold URLLC.PQ.push at h
  split at h
  · simp at h
  · rename_i hnle
    simp only [Except.ok.injEq] at h
    subst h
    exact ⟨not_le.mp hnle, rfl, rfl⟩

lemma urllc_enqueue_spare (s : URLLC.State) (p : Pkt) (w : Bool)
    (h : s.priority_queue.heap.length < s.priority_queue.max_size) :
    URLLC.enqueue_packet s p w =
      (true,
        { s with
          priority_queue :=
            { s.priority_queue with
              heap := s.priority_queue.heap ++
                [(-(p.priority.getD 5 : ℤ), s.priority_queue.counter, p)],
              counter := s.priority_queue.counter + 1 },
          redundancy_cache :=
            if w && URLLC.redundancy_enabled && URLLC.truthy p.packet_id then
              URLLC.cacheInsert s.redundancy_cache (p.packet_id.getD "") p
            else s.redundancy_cache }) := by
  unfold URLLC.enqueue_packet
  rw [urllc_push_ok _ _ h]

lemma urllc_retrans_spec (s : URLLC.State) (p : Pkt) :
    ((URLLC.handle_retransmission s p).1 = false ∧
     (URLLC.handle_retransmission s p).2 = s) ∨
    ((URLLC.handle_retransmission s p).1 = true ∧
      s.priority_queue.heap.length < s.priority_queue.max_size ∧
      (URLLC.handle_retransmission s p).2.priority_queue.heap.length =
        s.priority_queue.heap.length + 1 ∧
      (URLLC.handle_retransmission s p).2.priority_queue.max_size =
        s.priority_queue.max_size ∧
      (URLLC.handle_retransmission s p).2.processed_packets = s.processed_packets ∧
      (URLLC.handle_retransmission s p).2.qos_violations = s.qos_violations ∧
      (URLLC.handle_retransmission s p).2.retransmitted_packets =
        s.retransmitted_packets) := by
  unfold URLLC.handle_retransmission
  cases hp : p.packet_id with
  | none => exact Or.inl ⟨rfl, rfl⟩
  | some pid =>
    dsimp only
    by_cases hpe : pid = ""
    · rw [if_pos hpe]
      exact Or.inl ⟨rfl, rfl⟩
    · rw [if_neg hpe]
      cases hl : s.redundancy_cache.lookup pid with
      | none => exact Or.inl ⟨rfl, rfl⟩
      | some cached =>
        dsimp only
        cases hpush : URLLC.PQ.push s.priority_queue cached with
        | error e => exact Or.inl ⟨rfl, rfl⟩
        | ok q2 =>
          dsimp only
          obtain ⟨hlt, hheap, hmax⟩ := urllc_push_ok_spec hpush
          refine Or.inr ⟨rfl, hlt, ?_, ?_, rfl, rfl, rfl⟩
          · dsimp only
            rw [hheap]
            simp
          · dsimp only
            rw [hmax]

lemma urllc_finish_spec (a : URLLC.Acc) (qp : Pkt) (s2 : URLLC.State)
    (latency throughput drop_rate jitter : ℚ) (qos : Bool) :
    ∃ d : ℕ, d ≤ 1 ∧
      (URLLC.admitFinish a qp s2 latency throughput drop_rate jitter qos).retransOk =
        a.retransOk + d ∧
      (URLLC.admitFinish a qp s2 latency throughput drop_rate jitter
        qos).state.priority_queue.heap.length =
        s2.priority_queue.heap.length + d ∧
      (URLLC.admitFinish a qp s2 latency throughput drop_rate jitter
        qos).state.priority_queue.max_size = s2.priority_queue.max_size ∧
      (d = 1 → s2.priority_queue.heap.length < s2.priority_queue.max_size) ∧
      (URLLC.admitFinish a qp s2 latency throughput drop_rate jitter
        qos).state.processed_packets = s2.processed_packets + 1 ∧
      s2.qos_violations ≤
        (URLLC.admitFinish a qp s2 latency throughput drop_rate jitter
          qos).state.qos_violations ∧
      (URLLC.admitFinish a qp s2 latency throughput drop_rate jitter
        qos).state.qos_violations ≤ s2.qos_violations + 1 ∧
      (URLLC.admitFinish a qp s2 latency throughput drop_rate jitter
        qos).results.length = a.results.length + 1 := by
  cases qos with
  | true =>
    refine ⟨0, by omega, ?_, ?_, ?_, ?_, ?_, ?_, ?_, ?_⟩
    all_goals simp [URLLC.admitFinish, URLLC.aggressive_retry]
  | false =>
    rcases urllc_retrans_spec s2 qp with ⟨h1, h2⟩ | ⟨h1, hlt, hlen, hmax, hp, hv, hrp⟩
    · refine ⟨0, by omega, ?_, ?_, ?_, ?_, ?_, ?_, ?_, ?_⟩
      all_goals simp [URLLC.admitFinish, URLLC.aggressive_retry, h1, h2]
    · refine ⟨1, by omega, ?_, ?_, ?_, ?_, ?_, ?_, ?_, ?_⟩
      all_goals simp [URLLC.admitFinish, URLLC.aggressive_retry, h1, hlen, hmax, hp, hv,
        hlt]

lemma urllc_admit_spec (o : Oracle) (a : URLLC.Acc) (qp : Pkt) (s2 : URLLC.State) :
    ∃ d : ℕ, d ≤ 1 ∧
      (URLLC.admitBody o a qp s2).retransOk = a.retransOk + d ∧
      (URLLC.admitBody o a qp s2).state.priority_queue.heap.length =
        s2.priority_queue.heap.length + d ∧
      (URLLC.admitBody o a qp s2).state.priority_queue.max_size =
        s2.priority_queue.max_size ∧
      (d = 1 → s2.priority_queue.heap.length < s2.priority_queue.max_size) ∧
      (URLLC.admitBody o a qp s2).state.processed_packets = s2.processed_packets + 1 ∧
      s2.qos_violations ≤ (URLLC.admitBody o a qp s2).state.qos_violations ∧
      (URLLC.admitBody o a qp s2).state.qos_violations ≤ s2.qos_violations + 1 ∧
      (URLLC.admitBody o a qp s2).results.length = a.results.length + 1 := by
  simp only [URLLC.admitBody]
  exact urllc_finish_spec a qp s2 _ _ _ _ _

lemma urllc_enqueue_cases (s : URLLC.State) (p : Pkt) (w : Bool) {ok : Bool}
    {s1 : URLLC.State} (h : URLLC.enqueue_packet s p w = (ok, s1)) :
    (ok = false ∧ s1 = { s with dropped_packets := s.dropped_packets + 1 } ∧
      s.priority_queue.max_size ≤ s.priority_queue.heap.length) ∨
    (ok = true ∧ s.priority_queue.heap.length < s.priority_queue.max_size ∧
      s1.priority_queue.heap = s.priority_queue.heap ++
        [(-(p.priority.getD 5 : ℤ), s.priority_queue.counter, p)] ∧
      s1.priority_queue.max_size = s.priority_queue.max_size ∧
      s1.processed_packets = s.processed_packets ∧
      s1.dropped_packets = s.dropped_packets ∧
      s1.qos_violations = s.qos_violations ∧
      s1.retransmitted_packets = s.retransmitted_packets) := by
  unfold URLLC.enqueue_packet at h
  cases hpush : URLLC.PQ.push s.priority_queue p with
  | error e =>
    rw [hpush] at h
    dsimp only at h
    simp only [Prod.mk.injEq] at h
    obtain ⟨h1, h2⟩ := h
    subst h1
    subst h2
    left
    refine ⟨rfl, rfl, ?_⟩
    unfold URLLC.PQ.push at hpush
    split at hpush
    · rename_i hfull
      exact hfull
    · simp at hpush
  | ok q2 =>
    rw [hpush] at h
    dsimp only at h
    simp only [Prod.mk.injEq] at h
    obtain ⟨h1, h2⟩ := h
    subst h1
    subst h2
    obtain ⟨hlt, hheap, hmax⟩ := urllc_push_ok_spec hpush
    right
    exact ⟨rfl, hlt, hheap, hmax, rfl, rfl, rfl, rfl⟩

lemma urllc_pop_cases {q : URLLC.PQ} {op : Option Pkt} {q2 : URLLC.PQ}
    (h : URLLC.PQ.pop q = (op, q2)) :
    (q.heap = [] ∧ op = none ∧ q2 = q) ∨
    (∃ m r, URLLC.popMin q.heap = some (m, r) ∧ op = some m.2.2 ∧
      q2.heap = r ∧ q2.max_size = q.max_size ∧ q.heap.length = r.length + 1) := by
  unfold URLLC.PQ.pop at h
  cases hm : URLLC.popMin q.heap with
  | none =>
    rw [hm] at h
    dsimp only at h
    simp only [Prod.mk.injEq] at h
    obtain ⟨h1, h2⟩ := h
    subst h1
    subst h2
    left
    refine ⟨?_, rfl, rfl⟩
    by_contra hne
    obtain ⟨m, r, hmr⟩ := popMin_of_ne_nil hne
    rw [hm] at hmr
    exact Option.noConfusion hmr
  | some mr =>
    obtain ⟨m, r⟩ := mr
    rw [hm] at h
    dsimp only at h
    simp only [Prod.mk.injEq] at h
    obtain ⟨h1, h2⟩ := h
    subst h1
    subst h2
    right
    exact ⟨m, r, rfl, rfl, rfl, rfl, popMin_length hm⟩

lemma urllc_step_spec (o : Oracle) (a : URLLC.Acc) (p : Pkt) :
    (URLLC.step o a p).state.priority_queue.max_size =
      a.state.priority_queue.max_size ∧
    ((URLLC.step o a p).state.priority_queue.heap.length + a.retransOk =
      a.state.priority_queue.heap.length + (URLLC.step o a p).retransOk) ∧
    (a.state.priority_queue.heap.length ≤ a.state.priority_queue.max_size →
      (URLLC.step o a p).state.priority_queue.heap.length ≤
        a.state.priority_queue.max_size) ∧
    ((URLLC.step o a p).state.qos_violations + a.state.processed_packets ≤
      a.state.qos_violations + (URLLC.step o a p).state.processed_packets) ∧
    (a.state.processed_packets ≤ (URLLC.step o a p).state.processed_packets) ∧
    (a.retransOk ≤ (URLLC.step o a p).retransOk) := by
  unfold URLLC.step
  cases henq : URLLC.enqueue_packet a.state p true with
  | mk ok s1 =>
    cases ok with
    | false =>
      dsimp only
      rcases urllc_enqueue_cases a.state p true henq with ⟨-, h2, -⟩ | ⟨hok, -⟩
      · subst h2
        exact ⟨rfl, rfl, fun h => h, le_refl _, le_refl _, le_refl _⟩
      · exact absurd hok (by simp)
    | true =>
      dsimp only
      rcases urllc_enqueue_cases a.state p true henq with ⟨hok, -⟩ |
        ⟨-, hlt, hheap, hmax, hp1, hd1, hv1, hr1⟩
      · exact absurd hok (by simp)
      · cases hpop : URLLC.PQ.pop s1.priority_queue with
        | mk op q2 =>
          cases op with
          | none =>
            rcases urllc_pop_cases hpop with ⟨hnil, -, -⟩ | ⟨m, r, -, hsome, -⟩
            · rw [hheap] at hnil
              simp at hnil
            · exact Option.noConfusion hsome
          | some qp =>
            dsimp only
            rcases urllc_pop_cases hpop with ⟨-, hno, -⟩ |
              ⟨m, r, hm, hqp, hq2heap, hq2max, hlen1⟩
            · exact Option.noConfusion hno
            · obtain ⟨d, hd, hro, hlen, hmax2, hdlt, hp2, hv2a, hv2b, hres⟩ :=
                urllc_admit_spec o a qp { s1 with priority_queue := q2 }
              dsimp only at hro hlen hmax2 hdlt hp2 hv2a hv2b
              have hL : s1.priority_queue.heap.length =
                  a.state.priority_queue.heap.length + 1 := by
                rw [hheap]
                simp
              have hq2len : q2.heap.length = r.length := by rw [hq2heap]
              refine ⟨?_, by omega, ?_, by omega, by omega, by omega⟩
              · rw [hmax2, hq2max, hmax]
              · intro h
                rcases (by omega : d = 0 ∨ d = 1) with rfl | rfl
                · omega
                · have hx := hdlt rfl
                  rw [hq2max, hmax] at hx
                  omega

lemma urllc_fold_spec (o : Oracle) (l : List Pkt) : ∀ a : URLLC.Acc,
    (l.foldl (URLLC.step o) a).state.priority_queue.max_size =
      a.state.priority_queue.max_size ∧
    ((l.foldl (URLLC.step o) a).state.priority_queue.heap.length + a.retransOk =
      a.state.priority_queue.heap.length + (l.foldl (URLLC.step o) a).retransOk) ∧
    (a.state.priority_queue.heap.length ≤ a.state.priority_queue.max_size →
      (l.foldl (URLLC.step o) a).state.priority_queue.heap.length ≤
        a.state.priority_queue.max_size) ∧
    ((l.foldl (URLLC.step o) a).state.qos_violations + a.state.processed_packets ≤
      a.state.qos_violations + (l.foldl (URLLC.step o) a).state.processed_packets) ∧
    (a.state.processed_packets ≤ (l.foldl (URLLC.step o) a).state.processed_packets) ∧
    (a.retransOk ≤ (l.foldl (URLLC.step o) a).retransOk) := by
  induction l with
  | nil =>
    intro a
    simp only [List.foldl_nil]
    exact ⟨trivial, trivial, fun h => h, le_refl _, le_refl _, le_refl _⟩
  | cons p l ih =>
    intro a
    simp only [List.foldl_cons]
    obtain ⟨s1, s2, s3, s4, s5, s6⟩ := urllc_step_spec o a p
    obtain ⟨i1, i2, i3, i4, i5, i6⟩ := ih (URLLC.step o a p)
    refine ⟨by rw [i1, s1], by omega, fun h => ?_, by omega, le_trans s5 i5,
      le_trans s6 i6⟩
    have hstep : (URLLC.step o a p).state.priority_queue.heap.length ≤
        (URLLC.step o a p).state.priority_queue.max_size := by
      rw [s1]
      exact s3 h
    have hfold := i3 hstep
    rw [s1] at hfold
    exact hfold

/-- Stats, post-state and ghost counter of URLLC.process_batch in terms of the
packet fold. -/
lemma urllc_pb_proj (o : Oracle) (s : URLLC.State) (b : List Pkt) :
    (URLLC.process_batch o s b).2.1.priority_queue =
      (b.foldl (URLLC.step o) (URLLC.mkAcc s)).state.priority_queue ∧
    (URLLC.process_batch o s b).2.1.processed_packets =
      (b.foldl (URLLC.step o) (URLLC.mkAcc s)).state.processed_packets ∧
    (URLLC.process_batch o s b).2.1.qos_violations =
      (b.foldl (URLLC.step o) (URLLC.mkAcc s)).state.qos_violations ∧
    (URLLC.process_batch o s b).2.2 =
      (b.foldl (URLLC.step o) (URLLC.mkAcc s)).retransOk ∧
    (URLLC.process_batch o s b).1.total_processed =
      (b.foldl (URLLC.step o) (URLLC.mkAcc s)).state.processed_packets ∧
    (URLLC.process_batch o s b).1.reliability_index =
      rate100 (b.foldl (URLLC.step o) (URLLC.mkAcc s)).state.processed_packets
        (b.foldl (URLLC.step o) (URLLC.mkAcc s)).state.dropped_packets ∧
    (URLLC.process_batch o s b).1.qos_compliance_rate =
      rate100 (b.foldl (URLLC.step o) (URLLC.mkAcc s)).state.processed_packets
        (b.foldl (URLLC.step o) (URLLC.mkAcc s)).state.qos_violations := by
  unfold URLLC.process_batch
  dsimp only
  exact ⟨rfl, rfl, rfl, rfl, rfl, rfl, rfl⟩

/-! mMTC step and fold lemmas. -/

lemma mmtc_admit_spec (o : Oracle) (a : MMTC.Acc) (p : Pkt) (did : String)
    (dev : MMTC.Device) (s2 : MMTC.State) :
    (MMTC.admitBody o a p did dev s2).state.queue = s2.queue ∧
    (MMTC.admitBody o a p did dev s2).state.processed_packets =
      s2.processed_packets + 1 ∧
    (MMTC.admitBody o a p did dev s2).state.dropped_packets = s2.dropped_packets ∧
    (MMTC.admitBody o a p did dev s2).results.length = a.results.length + 1 ∧
    s2.qos_violations ≤ (MMTC.admitBody o a p did dev s2).state.qos_violations ∧
    (MMTC.admitBody o a p did dev s2).state.qos_violations ≤ s2.qos_violations + 1 ∧
    (MMTC.admitBody o a p did dev s2).state.device_registry = s2.device_registry ∧
    (MMTC.admitBody o a p did dev s2).state.aggregated_packets =
      s2.aggregated_packets := by
  refine ⟨rfl, rfl, rfl, by simp [MMTC.admitBody], ?_, ?_, rfl, rfl⟩ <;>
    (simp only [MMTC.admitBody]; split <;> omega)

lemma mmtc_step_spec (o : Oracle) (a : MMTC.Acc) (p : Pkt) :
    (a.state.queue.length ≤ MMTC.queue_size →
      (MMTC.step o a p).state.queue.length ≤ MMTC.queue_size) ∧
    ((MMTC.step o a p).state.qos_violations + a.state.processed_packets ≤
      a.state.qos_violations + (MMTC.step o a p).state.processed_packets) ∧
    (a.state.processed_packets ≤ (MMTC.step o a p).state.processed_packets) ∧
    ((MMTC.step o a p).results.length + a.state.processed_packets =
      a.results.length + (MMTC.step o a p).state.processed_packets) := by
  unfold MMTC.step
  dsimp only
  cases hreg : MMTC.register_or_get_device o (a.k + 1) a.state.device_registry
      (p.device_id.getD (o.fallbackName a.k)) with
  | error e =>
    dsimp only
    exact ⟨fun h => h, le_refl _, le_refl _, rfl⟩
  | ok t =>
    obtain ⟨dev, reg, k2⟩ := t
    dsimp only
    by_cases hq : MMTC.queue_size ≤ a.state.queue.length
    · rw [if_pos hq]
      dsimp only
      exact ⟨fun h => h, le_refl _, le_refl _, rfl⟩
    · rw [if_neg hq]
      obtain ⟨h1, h2, h3, h4, h5, h6, h7, h8⟩ :=
        mmtc_admit_spec o { a with
            devices_contacted :=
              MMTC.addUnique a.devices_contacted (p.device_id.getD (o.fallbackName a.k)),
            k := k2 } p (p.device_id.getD (o.fallbackName a.k)) dev
          { a.state with device_registry := reg, queue := a.state.queue ++ [p] }
      dsimp only at h1 h2 h3 h4 h5 h6
      refine ⟨fun _ => ?_, by omega, by omega, by omega⟩
      rw [h1]
      simp only [List.length_append, List.length_cons, List.length_nil]
      omega

lemma mmtc_fold_spec (o : Oracle) (l : List Pkt) : ∀ a : MMTC.Acc,
    (a.state.queue.length ≤ MMTC.queue_size →
      (l.foldl (MMTC.step o) a).state.queue.length ≤ MMTC.queue_size) ∧
    ((l.foldl (MMTC.step o) a).state.qos_violations + a.state.processed_packets ≤
      a.state.qos_violations + (l.foldl (MMTC.step o) a).state.processed_packets) ∧
    (a.state.processed_packets ≤ (l.foldl (MMTC.step o) a).state.processed_packets) ∧
    ((l.foldl (MMTC.step o) a).results.length + a.state.processed_packets =
      a.results.length + (l.foldl (MMTC.step o) a).state.processed_packets) := by
  induction l with
  | nil =>
    intro a
    simp only [List.foldl_nil]
    exact ⟨fun h => h, le_refl _, le_refl _, trivial⟩
  | cons p l ih =>
    intro a
    simp only [List.foldl_cons]
    obtain ⟨e1, e2, e3, e4⟩ := mmtc_step_spec o a p
    obtain ⟨i1, i2, i3, i4⟩ := ih (MMTC.step o a p)
    exact ⟨fun h => i1 (e1 h), by omega, by omega, by omega⟩

/-- Inversion of a returning aggregation call: the state it passes to the
main loop differs from the input state only in the aggregated counter. -/
lemma mmtc_agg_ok_inv {o : Oracle} {s : MMTC.State} {ps : List Pkt} {k : ℕ}
    {t : List Pkt × MMTC.State × ℕ}
    (h : MMTC.aggregate_packets_by_device o s ps k = Except.ok t) :
    t.2.1.queue = s.queue ∧
    t.2.1.processed_packets = s.processed_packets ∧
    t.2.1.dropped_packets = s.dropped_packets ∧
    t.2.1.qos_violations = s.qos_violations ∧
    t.2.1.device_registry = s.device_registry := by
  unfold MMTC.aggregate_packets_by_device at h
  revert h
  cases hf : MMTC.aggFold (ps.foldl (MMTC.groupStep o) ([], k)).1 ([], 0) with
  | ok ag =>
    dsimp only
    intro h
    cases h
    exact ⟨rfl, rfl, rfl, rfl, rfl⟩
  | error a =>
    dsimp only
    intro h
    exact Except.noConfusion h

/-- Inversion of a raising aggregation call: the state at the raise differs
from the input state only in the aggregated counter. -/
lemma mmtc_agg_err_inv {o : Oracle} {s : MMTC.State} {ps : List Pkt} {k : ℕ}
    {e : MMTC.State}
    (h : MMTC.aggregate_packets_by_device o s ps k = Except.error e) :
    e.queue = s.queue ∧
    e.processed_packets = s.processed_packets ∧
    e.dropped_packets = s.dropped_packets ∧
    e.qos_violations = s.qos_violations ∧
    e.device_registry = s.device_registry := by
  unfold MMTC.aggregate_packets_by_device at h
  revert h
  cases hf : MMTC.aggFold (ps.foldl (MMTC.groupStep o) ([], k)).1 ([], 0) with
  | ok ag =>
    dsimp only
    intro h
    exact Except.noConfusion h
  | error a =>
    dsimp only
    intro h
    cases h
    exact ⟨rfl, rfl, rfl, rfl, rfl⟩

/-- Inversion of a returning process_batch call: the result is the main body
applied to what the aggregation preamble returned. -/
lemma mmtc_pb_ok_inv {o : Oracle} {s : MMTC.State} {b : List Pkt}
    {r : MMTC.Stats × MMTC.State}
    (h : MMTC.process_batch o s b = Except.ok r) :
    ∃ t, MMTC.aggregate_packets_by_device o s b 0 = Except.ok t ∧
      r = MMTC.batchBody o t := by
  unfold MMTC.process_batch at h
  simp only [MMTC.aggregation_enabled, if_true] at h
  revert h
  cases ha : MMTC.aggregate_packets_by_device o s b 0 with
  | ok t =>
    dsimp only
    intro h
    cases h
    exact ⟨t, rfl, rfl⟩
  | error e =>
    dsimp only
    intro h
    exact Except.noConfusion h

/-- Inversion of a raising process_batch call. -/
lemma mmtc_pb_err_inv {o : Oracle} {s : MMTC.State} {b : List Pkt}
    {e : MMTC.State}
    (h : MMTC.process_batch o s b = Except.error e) :
    MMTC.aggregate_packets_by_device o s b 0 = Except.error e := by
  unfold MMTC.process_batch at h
  simp only [MMTC.aggregation_enabled, if_true] at h
  revert h
  cases ha : MMTC.aggregate_packets_by_device o s b 0 with
  | ok t =>
    dsimp only
    intro h
    exact Except.noConfusion h
  | error e2 =>
    dsimp only
    intro h
    injection h with he
    rw [he]

/-- Stats and post-state of the main body in terms of the packet fold. -/
lemma mmtc_body_proj (o : Oracle) (t : List Pkt × MMTC.State × ℕ) :
    (MMTC.batchBody o t).2.queue =
      (t.1.foldl (MMTC.step o) (MMTC.mkAcc t.2.1 t.2.2)).state.queue ∧
    (MMTC.batchBody o t).2.processed_packets =
      (t.1.foldl (MMTC.step o) (MMTC.mkAcc t.2.1 t.2.2)).state.processed_packets ∧
    (MMTC.batchBody o t).2.dropped_packets =
      (t.1.foldl (MMTC.step o) (MMTC.mkAcc t.2.1 t.2.2)).state.dropped_packets ∧
    (MMTC.batchBody o t).2.qos_violations =
      (t.1.foldl (MMTC.step o) (MMTC.mkAcc t.2.1 t.2.2)).state.qos_violations ∧
    (MMTC.batchBody o t).2.aggregated_packets =
      (t.1.foldl (MMTC.step o) (MMTC.mkAcc t.2.1 t.2.2)).state.aggregated_packets ∧
    (MMTC.batchBody o t).2.device_registry =
      (t.1.foldl (MMTC.step o) (MMTC.mkAcc t.2.1 t.2.2)).state.device_registry ∧
    (MMTC.batchBody o t).1.packets_processed =
      (t.1.foldl (MMTC.step o) (MMTC.mkAcc t.2.1 t.2.2)).results.length ∧
    (MMTC.batchBody o t).1.packets_dropped =
      (t.1.foldl (MMTC.step o) (MMTC.mkAcc t.2.1 t.2.2)).state.dropped_packets ∧
    (MMTC.batchBody o t).1.qos_violations =
      (t.1.foldl (MMTC.step o) (MMTC.mkAcc t.2.1 t.2.2)).state.qos_violations ∧
    (MMTC.batchBody o t).1.packets_aggregated =
      (t.1.foldl (MMTC.step o) (MMTC.mkAcc t.2.1 t.2.2)).state.aggregated_packets ∧
    (MMTC.batchBody o t).1.total_processed =
      (t.1.foldl (MMTC.step o) (MMTC.mkAcc t.2.1 t.2.2)).state.processed_packets ∧
    (MMTC.batchBody o t).1.success_rate =
      rate100
        (t.1.foldl (MMTC.step o) (MMTC.mkAcc t.2.1 t.2.2)).state.processed_packets
        (t.1.foldl (MMTC.step o) (MMTC.mkAcc t.2.1 t.2.2)).state.dropped_packets ∧
    (MMTC.batchBody o t).1.qos_compliance_rate =
      rate100
        (t.1.foldl (MMTC.step o) (MMTC.mkAcc t.2.1 t.2.2)).state.processed_packets
        (t.1.foldl (MMTC.step o) (MMTC.mkAcc t.2.1 t.2.2)).state.qos_violations := by
  unfold MMTC.batchBody
  refine ⟨?_, ?_, ?_, ?_, ?_, ?_, ?_, ?_, ?_, ?_, ?_, ?_, ?_⟩ <;> rfl

/-! Claim C1. -/

/-- C1, counterexample to the claim as stated: the URLLC engine has no
preemption.  With a full queue whose residents all have priority 1 and an
incoming packet of priority 9 (≥ 8), admission does not succeed and nothing
is evicted: the packet is rejected, counted as dropped, and the queue is
unchanged. -/
theorem claim_C1_counterexample :
    8 ≤ c1HighPkt.priority.getD 5 ∧
    (∃ e ∈ c1FullState.priority_queue.heap,
       e.2.2.priority.getD 5 < c1HighPkt.priority.getD 5) ∧
    (URLLC.enqueue_packet c1FullState c1HighPkt true).1 = false ∧
    (URLLC.enqueue_packet c1FullState c1HighPkt true).2.priority_queue =
      c1FullState.priority_queue ∧
    (URLLC.enqueue_packet c1FullState c1HighPkt true).2.dropped_packets =
      c1FullState.dropped_packets + 1 := by
  have hfull : c1FullState.priority_queue.max_size ≤
      c1FullState.priority_queue.heap.length := by
    simp [c1FullState, c1FullHeap]
  refine ⟨by decide, ⟨((-1 : ℤ), 0, c1LowPkt), ?_, by decide⟩, ?_, ?_, ?_⟩
  · simp only [c1FullState, c1FullHeap, List.mem_map, List.mem_range]
    exact ⟨0, by norm_num [URLLC.queue_size], rfl⟩
  · rw [urllc_enqueue_full _ _ _ hfull]
  · rw [urllc_enqueue_full _ _ _ hfull]
  · rw [urllc_enqueue_full _ _ _ hfull]

/-- C1 (amended): when the URLLC queue is full, no preemption occurs: every
incoming packet, of any priority, is rejected, counted as dropped, and the
queue is left unchanged. -/
theorem claim_C1 (s : URLLC.State) (p : Pkt) (w : Bool)
    (h : s.priority_queue.max_size ≤ s.priority_queue.heap.length) :
    (URLLC.enqueue_packet s p w).1 = false ∧
    (URLLC.enqueue_packet s p w).2 =
      { s with dropped_packets := s.dropped_packets + 1 } := by
  rw [urllc_enqueue_full _ _ _ h]
  exact ⟨rfl, rfl⟩

/-- C1 witness: the amended theorem applied at the concrete full queue. -/
theorem claim_C1_witness :
    (URLLC.enqueue_packet c1FullState c1HighPkt true).1 = false ∧
    (URLLC.enqueue_packet c1FullState c1HighPkt true).2 =
      { c1FullState with dropped_packets := c1FullState.dropped_packets + 1 } :=
  claim_C1 c1FullState c1HighPkt true (by simp [c1FullState, c1FullHeap])

/-! Claim C4. -/


/-- C4, counterexample to the claim as stated: terminal states are not
final.  A start request on a STOPPED run sets it back to RUNNING, and the
tick loop's completion overwrites STOPPED with COMPLETED. -/
theorem claim_C4_counterexample :
    c4Stopped.status = Backend.SimStatus.stopped ∧
    (Backend.startSim c4Stopped).status = Backend.SimStatus.running ∧
    (Backend.runLoop 1 (fun _ => (0, 0, 0)) c4Stopped).status =
      Backend.SimStatus.completed := by
  refine ⟨rfl, rfl, ?_⟩
  decide

/-- C4 (amended): start, stop and loop-completion do set RUNNING, STOPPED and
COMPLETED respectively, and the loop never sets ERROR — but terminal states
are not final: a start request sets any run (whatever its status) to
RUNNING, and loop completion unconditionally sets COMPLETED, even over
STOPPED. -/
theorem claim_C4 (s : Backend.Sim) (n : ℕ) (f : ℕ → ℕ × ℕ × ℕ) :
    (Backend.startSim s).status = Backend.SimStatus.running ∧
    (Backend.stopSim s).status = Backend.SimStatus.stopped ∧
    (Backend.runLoop n f s).status = Backend.SimStatus.completed := by
  refine ⟨rfl, rfl, ?_⟩
  induction n generalizing s with
  | zero => rfl
  | succ n ih =>
    unfold Backend.runLoop
    split
    · exact ih _
    · rfl

/-! Claim C6. -/


lemma patternFn_const (o : Gen.GOracle) (t : ℝ) : Gen.patternFn o "constant" t = 1 := rfl

lemma patternFn_linear (o : Gen.GOracle) (t : ℝ) :
    Gen.patternFn o "linear_increase" t = min 1 (t / 30) := rfl

lemma patternFn_burst (o : Gen.GOracle) (t : ℝ) :
    Gen.patternFn o "burst" t =
      (if t - 10 * (⌊t / 10⌋ : ℤ) < 2 then 3/2 else 7/10) := rfl

lemma patternFn_wave (o : Gen.GOracle) (t : ℝ) :
    Gen.patternFn o "wave" t = 1 + (1/2) * Real.sin (2 * Real.pi * t / 60) := rfl

lemma patternFn_poisson (o : Gen.GOracle) (t : ℝ) :
    Gen.patternFn o "poisson" t = max (1/10) ((o.pois : ℝ) / 5) := rfl

lemma patternFn_gaussian (o : Gen.GOracle) (t : ℝ) :
    Gen.patternFn o "gaussian" t = max (1/10) o.gauss := rfl

/-- C6, counterexample to the claim as stated: "poisson" is outside the
claim's recognized set {constant, linear_increase, burst, wave}, yet its
multiplier is not constant's 1.0 — with a Poisson sample of 10 the
multiplier is 2. -/
theorem claim_C6_counterexample :
    "poisson" ∉ ["constant", "linear_increase", "burst", "wave"] ∧
    Gen.get_multiplier c6Oracle "poisson" 0 = 2 ∧ (2 : ℝ) ≠ 1 := by
  refine ⟨by decide, ?_, by norm_num⟩
  unfold Gen.get_multiplier
  rw [patternFn_poisson]
  rw [show ((c6Oracle.pois : ℝ) / 5) = 2 by norm_num [c6Oracle]]
  rw [← max_assoc, max_self]
  exact max_eq_right (by norm_num)

/-- C6 (amended): the multiplier is max(0.1, patternFunction(elapsedTime))
with constant = 1, linear_increase ramping to 1 over 30 units, burst 1.5 on
the first 20% of each 10-unit cycle and 0.7 otherwise, and wave sinusoidal
with period 60 and amplitude 0.5 — but the recognized set also contains the
random patterns poisson and gaussian; only names outside these six fall back
to constant's 1.0 (never a failure). -/
theorem claim_C6 (o : Gen.GOracle) (t : ℝ) :
    Gen.get_multiplier o "constant" t = 1 ∧
    Gen.get_multiplier o "linear_increase" t = max (1/10) (min 1 (t / 30)) ∧
    Gen.get_multiplier o "burst" t =
      (if t - 10 * (⌊t / 10⌋ : ℤ) < 2 then 3/2 else 7/10) ∧
    Gen.get_multiplier o "wave" t = 1 + (1/2) * Real.sin (2 * Real.pi * t / 60) ∧
    Gen.get_multiplier o "poisson" t = max (1/10) ((o.pois : ℝ) / 5) ∧
    Gen.get_multiplier o "gaussian" t = max (1/10) o.gauss ∧
    (∀ nm : String,
      nm ∉ ["constant", "linear_increase", "burst", "wave", "poisson", "gaussian"] →
      Gen.get_multiplier o nm t = 1) := by
  refine ⟨?_, ?_, ?_, ?_, ?_, ?_, ?_⟩
  · unfold Gen.get_multiplier
    rw [patternFn_const]
    exact max_eq_right (by norm_num)
  · unfold Gen.get_multiplier
    rw [patternFn_linear]
  · unfold Gen.get_multiplier
    rw [patternFn_burst]
    split
    · exact max_eq_right (by norm_num)
    · exact max_eq_right (by norm_num)
  · unfold Gen.get_multiplier
    rw [patternFn_wave]
    have hs := Real.neg_one_le_sin (2 * Real.pi * t / 60)
    exact max_eq_right (by nlinarith)
  · unfold Gen.get_multiplier
    rw [patternFn_poisson, ← max_assoc, max_self]
  · unfold Gen.get_multiplier
    rw [patternFn_gaussian, ← max_assoc, max_self]
  · intro nm hnm
    simp only [List.mem_cons, List.mem_singleton, not_or] at hnm
    obtain ⟨h1, h2, h3, h4, h5, h6, _⟩ := hnm
    unfold Gen.get_multiplier Gen.patternFn
    rw [if_neg h1, if_neg h2, if_neg h3, if_neg h4, if_neg h5, if_neg h6]
    exact max_eq_right (by norm_num)

/-! Per-call and per-run invariants. -/

lemma embb_pb_inv (o : Oracle) (s : EMBB.State) (b : List Pkt)
    (h1 : s.queue.length ≤ EMBB.queue_size)
    (h2 : s.qos_violations ≤ s.processed_packets) :
    (EMBB.process_batch o s b).2.queue.length ≤ EMBB.queue_size ∧
    (EMBB.process_batch o s b).2.qos_violations ≤
      (EMBB.process_batch o s b).2.processed_packets := by
  obtain ⟨p1, p2, p3, p4, -⟩ := embb_pb_proj o s b
  obtain ⟨f1, f2, f3, f4⟩ := embb_fold_spec o b (EMBB.mkAcc s)
  have e : (EMBB.mkAcc s).state = s := rfl
  rw [e] at f2
  constructor
  · rw [p1]
    exact f1 h1
  · rw [p4, p2]
    omega

lemma embb_run_inv : ∀ (calls : List (Oracle × List Pkt)) (s : EMBB.State),
    s.queue.length ≤ EMBB.queue_size → s.qos_violations ≤ s.processed_packets →
    (EMBB.runBatches calls s).queue.length ≤ EMBB.queue_size ∧
    (EMBB.runBatches calls s).qos_violations ≤
      (EMBB.runBatches calls s).processed_packets := by
  intro calls
  induction calls with
  | nil =>
    intro s h1 h2
    simp only [EMBB.runBatches]
    exact ⟨h1, h2⟩
  | cons c rest ih =>
    intro s h1 h2
    obtain ⟨o, b⟩ := c
    simp only [EMBB.runBatches]
    obtain ⟨g1, g2⟩ := embb_pb_inv o s b h1 h2
    exact ih _ g1 g2

lemma urllc_pb_inv (o : Oracle) (s : URLLC.State) (b : List Pkt)
    (h1 : s.priority_queue.heap.length ≤ URLLC.queue_size)
    (hm : s.priority_queue.max_size = URLLC.queue_size)
    (h2 : s.qos_violations ≤ s.processed_packets) :
    (URLLC.process_batch o s b).2.1.priority_queue.heap.length ≤ URLLC.queue_size ∧
    (URLLC.process_batch o s b).2.1.priority_queue.max_size = URLLC.queue_size ∧
    (URLLC.process_batch o s b).2.1.qos_violations ≤
      (URLLC.process_batch o s b).2.1.processed_packets := by
  obtain ⟨p1, p2, p3, -, -, -, -⟩ := urllc_pb_proj o s b
  obtain ⟨f1, f2, f3, f4, f5, f6⟩ := urllc_fold_spec o b (URLLC.mkAcc s)
  have e : (URLLC.mkAcc s).state = s := rfl
  rw [e] at f1 f3 f4
  refine ⟨?_, ?_, ?_⟩
  · have hx := f3 (by rw [hm]; exact h1)
    rw [hm] at hx
    rw [p1]
    exact hx
  · rw [p1, f1, hm]
  · rw [p3, p2]
    omega

lemma urllc_run_inv : ∀ (calls : List (Oracle × List Pkt)) (s : URLLC.State),
    s.priority_queue.heap.length ≤ URLLC.queue_size →
    s.priority_queue.max_size = URLLC.queue_size →
    s.qos_violations ≤ s.processed_packets →
    (URLLC.runBatches calls s).priority_queue.heap.length ≤ URLLC.queue_size ∧
    (URLLC.runBatches calls s).priority_queue.max_size = URLLC.queue_size ∧
    (URLLC.runBatches calls s).qos_violations ≤
      (URLLC.runBatches calls s).processed_packets := by
  intro calls
  induction calls with
  | nil =>
    intro s h1 hm h2
    simp only [URLLC.runBatches]
    exact ⟨h1, hm, h2⟩
  | cons c rest ih =>
    intro s h1 hm h2
    obtain ⟨o, b⟩ := c
    simp only [URLLC.runBatches]
    obtain ⟨g1, g2, g3⟩ := urllc_pb_inv o s b h1 hm h2
    exact ih _ g1 g2 g3

lemma mmtc_pb_inv (o : Oracle) (s : MMTC.State) (b : List Pkt)
    (h1 : s.queue.length ≤ MMTC.queue_size)
    (h2 : s.qos_violations ≤ s.processed_packets) :
    (MMTC.afterBatch o s b).queue.length ≤ MMTC.queue_size ∧
    (MMTC.afterBatch o s b).qos_violations ≤
      (MMTC.afterBatch o s b).processed_packets := by
  unfold MMTC.afterBatch
  cases hp : MMTC.process_batch o s b with
  | ok r =>
    dsimp only
    obtain ⟨t, ha, rfl⟩ := mmtc_pb_ok_inv hp
    obtain ⟨q1, q2, -, q4, -⟩ := mmtc_agg_ok_inv ha
    obtain ⟨p1, p2, -, p4, -, -, -, -, -, -, -, -, -⟩ := mmtc_body_proj o t
    obtain ⟨f1, f2, -, -⟩ := mmtc_fold_spec o t.1 (MMTC.mkAcc t.2.1 t.2.2)
    have e1 : (MMTC.mkAcc t.2.1 t.2.2).state = t.2.1 := rfl
    rw [e1] at f1 f2
    rw [q1] at f1
    rw [q2, q4] at f2
    constructor
    · rw [p1]
      exact f1 h1
    · rw [p4, p2]
      omega
  | error e =>
    dsimp only
    obtain ⟨q1, q2, -, q4, -⟩ := mmtc_agg_err_inv (mmtc_pb_err_inv hp)
    exact ⟨by rw [q1]; exact h1, by rw [q4, q2]; exact h2⟩

lemma mmtc_run_inv : ∀ (calls : List (Oracle × List Pkt)) (s : MMTC.State),
    s.queue.length ≤ MMTC.queue_size → s.qos_violations ≤ s.processed_packets →
    (MMTC.runBatches calls s).queue.length ≤ MMTC.queue_size ∧
    (MMTC.runBatches calls s).qos_violations ≤
      (MMTC.runBatches calls s).processed_packets := by
  intro calls
  induction calls with
  | nil =>
    intro s h1 h2
    simp only [MMTC.runBatches]
    exact ⟨h1, h2⟩
  | cons c rest ih =>
    intro s h1 h2
    obtain ⟨o, b⟩ := c
    simp only [MMTC.runBatches]
    obtain ⟨g1, g2⟩ := mmtc_pb_inv o s b h1 h2
    exact ih _ g1 g2

/-! Bounds of the aggregate-rate formula. -/

lemma rate100_le_100 (p b : ℕ) : rate100 p b ≤ 100 := by
  unfold rate100
  split
  · rename_i hp
    have hp2 : (0 : ℚ) < (p : ℚ) := by exact_mod_cast hp
    rw [div_mul_eq_mul_div, div_le_iff hp2]
    nlinarith [Nat.cast_nonneg (α := ℚ) b]
  · norm_num

lemma rate100_nonneg {p b : ℕ} (h : b ≤ p) : 0 ≤ rate100 p b := by
  unfold rate100
  split
  · rename_i hp
    have hb : (b : ℚ) ≤ (p : ℚ) := by exact_mod_cast h
    have hp2 : (0 : ℚ) < (p : ℚ) := by exact_mod_cast hp
    have : (0 : ℚ) ≤ ((p : ℚ) - (b : ℚ)) / (p : ℚ) := div_nonneg (by linarith) hp2.le
    nlinarith
  · exact le_refl _

lemma rate100_zero (b : ℕ) : rate100 0 b = 0 := by
  unfold rate100
  norm_num

/-- C6 witness: the amended theorem applied to the unknown name "zigzag" and
to the constant pattern. -/
theorem claim_C6_witness :
    Gen.get_multiplier c6Oracle "constant" 0 = 1 ∧
    Gen.get_multiplier c6Oracle "zigzag" 0 = 1 :=
  ⟨(claim_C6 c6Oracle 0).1, (claim_C6 c6Oracle 0).2.2.2.2.2.2 "zigzag" (by decide)⟩

/-! Claim C5. -/


lemma pyInt_eq_floor {x : ℝ} (h : 0 ≤ x) : Gen.pyInt x = ⌊x⌋ := if_pos h

lemma get_multiplier_pos (o : Gen.GOracle) (nm : String) (t : ℝ) :
    (0 : ℝ) < Gen.get_multiplier o nm t :=
  lt_of_lt_of_le (by norm_num) (le_max_left _ _)

/-- The per-slice name/count shape of one generate_traffic_batch call. -/
lemma gen_lengths (o : Gen.GOracle) (c : ℕ) (V : ℤ) (pattern : String) (t : ℝ) :
    (Gen.generate_traffic_batch o c V pattern t).map (fun x => (x.1, x.2.length)) =
      [("embb",
         (Gen.pyInt ((Gen.pyInt ((V : ℝ) * Gen.get_multiplier o pattern t) : ℝ) *
           ((2/5 : ℚ) : ℝ))).toNat),
       ("urllc",
         (Gen.pyInt ((Gen.pyInt ((V : ℝ) * Gen.get_multiplier o pattern t) : ℝ) *
           ((3/10 : ℚ) : ℝ))).toNat),
       ("mmtc",
         (Gen.pyInt ((Gen.pyInt ((V : ℝ) * Gen.get_multiplier o pattern t) : ℝ) *
           ((3/10 : ℚ) : ℝ))).toNat)] := by
  simp [Gen.generate_traffic_batch, Gen.PROFILES, Gen.generate_slice_packets]

/-- General form of C5: with a nonnegative requested volume, every slice gets
floor(floor(totalVolume * multiplier) * share) packets. -/
lemma c5_formula (o : Gen.GOracle) (c : ℕ) (V : ℤ) (pattern : String) (t : ℝ)
    (h : 0 ≤ V) :
    (Gen.generate_traffic_batch o c V pattern t).map (fun x => (x.1, x.2.length)) =
      [("embb",
         (⌊(⌊(V : ℝ) * Gen.get_multiplier o pattern t⌋ : ℝ) * (2/5 : ℝ)⌋).toNat),
       ("urllc",
         (⌊(⌊(V : ℝ) * Gen.get_multiplier o pattern t⌋ : ℝ) * (3/10 : ℝ)⌋).toNat),
       ("mmtc",
         (⌊(⌊(V : ℝ) * Gen.get_multiplier o pattern t⌋ : ℝ) * (3/10 : ℝ)⌋).toNat)] := by
  have hV : (0 : ℝ) ≤ (V : ℝ) := by exact_mod_cast h
  have h1 : (0 : ℝ) ≤ (V : ℝ) * Gen.get_multiplier o pattern t :=
    mul_nonneg hV (get_multiplier_pos o pattern t).le
  have hadj : (0 : ℝ) ≤ (⌊(V : ℝ) * Gen.get_multiplier o pattern t⌋ : ℝ) := by
    exact_mod_cast Int.floor_nonneg.mpr h1
  have e25 : ((2/5 : ℚ) : ℝ) = (2/5 : ℝ) := by norm_num
  have e31 : ((3/10 : ℚ) : ℝ) = (3/10 : ℝ) := by norm_num
  rw [gen_lengths, pyInt_eq_floor h1, e25, e31,
    pyInt_eq_floor (mul_nonneg hadj (by norm_num)),
    pyInt_eq_floor (mul_nonneg hadj (by norm_num))]

/-- C5: generate produces per slice floor(floor(totalVolume * multiplier) *
share) packets; in particular 3000 packets at pattern constant with shares
0.4/0.3/0.3 yield exactly 1200 eMBB, 900 URLLC and 900 mMTC packets. -/
theorem claim_C5 :
    (∀ (o : Gen.GOracle) (c : ℕ) (V : ℤ) (pattern : String) (t : ℝ), 0 ≤ V →
      (Gen.generate_traffic_batch o c V pattern t).map (fun x => (x.1, x.2.length)) =
        [("embb",
           (⌊(⌊(V : ℝ) * Gen.get_multiplier o pattern t⌋ : ℝ) * (2/5 : ℝ)⌋).toNat),
         ("urllc",
           (⌊(⌊(V : ℝ) * Gen.get_multiplier o pattern t⌋ : ℝ) * (3/10 : ℝ)⌋).toNat),
         ("mmtc",
           (⌊(⌊(V : ℝ) * Gen.get_multiplier o pattern t⌋ : ℝ) * (3/10 : ℝ)⌋).toNat)]) ∧
    (∀ (o : Gen.GOracle) (c : ℕ),
      (Gen.generate_traffic_batch o c 3000 "constant" 0).map (fun x => (x.1, x.2.length)) =
        [("embb", 1200), ("urllc", 900), ("mmtc", 900)]) := by
  refine ⟨fun o c V pattern t h => c5_formula o c V pattern t h, fun o c => ?_⟩
  rw [c5_formula o c 3000 "constant" 0 (by norm_num)]
  have hm : Gen.get_multiplier o "constant" (0 : ℝ) = 1 := by
    unfold Gen.get_multiplier
    rw [patternFn_const]
    exact max_eq_right (by norm_num)
  rw [hm]
  have h1 : ⌊(((3000 : ℤ) : ℝ)) * 1⌋ = (3000 : ℤ) := by
    rw [mul_one, Int.floor_intCast]
  rw [h1]
  have h2 : ⌊((3000 : ℤ) : ℝ) * (2/5 : ℝ)⌋ = (1200 : ℤ) := by
    have e : ((3000 : ℤ) : ℝ) * (2/5 : ℝ) = ((1200 : ℤ) : ℝ) := by norm_num
    rw [e, Int.floor_intCast]
  have h3 : ⌊((3000 : ℤ) : ℝ) * (3/10 : ℝ)⌋ = (900 : ℤ) := by
    have e : ((3000 : ℤ) : ℝ) * (3/10 : ℝ) = ((900 : ℤ) : ℝ) := by norm_num
    rw [e, Int.floor_intCast]
  rw [h2, h3]
  rfl

/-- C5 witness: the general-formula half of the theorem applied at the
concrete scenario, its nonnegativity hypothesis discharged there. -/
theorem claim_C5_witness :
    (Gen.generate_traffic_batch c5Oracle 0 3000 "constant" 0).map
        (fun x => (x.1, x.2.length)) =
      [("embb",
         (⌊(⌊((3000 : ℤ) : ℝ) * Gen.get_multiplier c5Oracle "constant" 0⌋ : ℝ) *
           (2/5 : ℝ)⌋).toNat),
       ("urllc",
         (⌊(⌊((3000 : ℤ) : ℝ) * Gen.get_multiplier c5Oracle "constant" 0⌋ : ℝ) *
           (3/10 : ℝ)⌋).toNat),
       ("mmtc",
         (⌊(⌊((3000 : ℤ) : ℝ) * Gen.get_multiplier c5Oracle "constant" 0⌋ : ℝ) *
           (3/10 : ℝ)⌋).toNat)] :=
  claim_C5.1 c5Oracle 0 3000 "constant" 0 (by norm_num)

/-! Claim C2. -/

/-- C2: for all three engines and any sequence of process_batch calls from the
initial state, the queue length never exceeds the configured capacity — after
every call, and also at every intermediate point of a call (any prefix fold
of per-packet steps from a reachable state). -/
theorem claim_C2 (calls : List (Oracle × List Pkt)) (o : Oracle) (b : List Pkt) :
    (EMBB.runBatches calls EMBB.init).queue.length ≤ EMBB.queue_size ∧
    (b.foldl (EMBB.step o)
      (EMBB.mkAcc (EMBB.runBatches calls EMBB.init))).state.queue.length ≤
      EMBB.queue_size ∧
    (URLLC.runBatches calls URLLC.init).priority_queue.heap.length ≤
      URLLC.queue_size ∧
    (b.foldl (URLLC.step o)
      (URLLC.mkAcc (URLLC.runBatches calls
        URLLC.init))).state.priority_queue.heap.length ≤ URLLC.queue_size ∧
    (MMTC.runBatches calls MMTC.init).queue.length ≤ MMTC.queue_size ∧
    (b.foldl (MMTC.step o)
      (MMTC.mkAcc (MMTC.runBatches calls MMTC.init) 0)).state.queue.length ≤
      MMTC.queue_size := by
  obtain ⟨he1, he2⟩ := embb_run_inv calls EMBB.init (by decide) (by decide)
  obtain ⟨hu1, hu2, hu3⟩ := urllc_run_inv calls URLLC.init (by decide) rfl (by decide)
  obtain ⟨hm1, hm2⟩ := mmtc_run_inv calls MMTC.init (by decide) (by decide)
  obtain ⟨fe1, -, -, -⟩ :=
    embb_fold_spec o b (EMBB.mkAcc (EMBB.runBatches calls EMBB.init))
  obtain ⟨-, -, fu3, -, -, -⟩ :=
    urllc_fold_spec o b (URLLC.mkAcc (URLLC.runBatches calls URLLC.init))
  obtain ⟨fm1, -, -, -⟩ :=
    mmtc_fold_spec o b (MMTC.mkAcc (MMTC.runBatches calls MMTC.init) 0)
  refine ⟨he1, fe1 he1, hu1, ?_, hm1, fm1 hm1⟩
  have e : (URLLC.mkAcc (URLLC.runBatches calls URLLC.init)).state =
      URLLC.runBatches calls URLLC.init := rfl
  rw [e] at fu3
  have hx := fu3 (by rw [hu2]; exact hu1)
  rw [hu2] at hx
  exact hx

/-! Claim C9. -/

/-- C9: in the batch stats of the eMBB and mMTC engines, packets_processed
counts only the packets admitted in the current call (the processed-counter
delta of the call), while packets_dropped and qos_violations report the
engine's cumulative lifetime counters, i.e. equal the post-call state's
counters.  For mMTC this is stated for every call that returns: a KeyError
raised by the aggregation preamble produces no stats at all. -/
theorem claim_C9 (o : Oracle) (sE : EMBB.State) (sM : MMTC.State)
    (bE bM : List Pkt) :
    ((EMBB.process_batch o sE bE).1.packets_dropped =
      (EMBB.process_batch o sE bE).2.dropped_packets ∧
     (EMBB.process_batch o sE bE).1.qos_violations =
      (EMBB.process_batch o sE bE).2.qos_violations ∧
     sE.processed_packets + (EMBB.process_batch o sE bE).1.packets_processed =
      (EMBB.process_batch o sE bE).2.processed_packets) ∧
    (∀ r, MMTC.process_batch o sM bM = Except.ok r →
     r.1.packets_dropped = r.2.dropped_packets ∧
     r.1.qos_violations = r.2.qos_violations ∧
     sM.processed_packets + r.1.packets_processed = r.2.processed_packets) := by
  obtain ⟨pe1, pe2, pe3, pe4, pe5, pe6, pe7, pe8, -⟩ := embb_pb_proj o sE bE
  obtain ⟨fe1, fe2, fe3, fe4⟩ := embb_fold_spec o bE (EMBB.mkAcc sE)
  have ee1 : (EMBB.mkAcc sE).state = sE := rfl
  have ee2 : (EMBB.mkAcc sE).results = [] := rfl
  rw [ee1, ee2] at fe4
  refine ⟨⟨?_, ?_, ?_⟩, ?_⟩
  · rw [pe6, pe3]
  · rw [pe7, pe4]
  · rw [pe5, pe2]
    simp only [List.length_nil] at fe4
    omega
  · intro r hr
    obtain ⟨t, ha, rfl⟩ := mmtc_pb_ok_inv hr
    obtain ⟨-, q2, -, -, -⟩ := mmtc_agg_ok_inv ha
    obtain ⟨-, pm2, pm3, pm4, -, -, pm7, pm8, pm9, -, -, -, -⟩ := mmtc_body_proj o t
    obtain ⟨-, -, -, fm4⟩ := mmtc_fold_spec o t.1 (MMTC.mkAcc t.2.1 t.2.2)
    have em1 : (MMTC.mkAcc t.2.1 t.2.2).state.processed_packets =
        t.2.1.processed_packets := rfl
    have em2 : (MMTC.mkAcc t.2.1 t.2.2).results = ([] : List MMTC.PRes) := rfl
    rw [em1, em2, q2] at fm4
    refine ⟨?_, ?_, ?_⟩
    · rw [pm8, pm3]
    · rw [pm9, pm4]
    · rw [pm7, pm2]
      simp only [List.length_nil] at fm4
      omega

/-- C9 witness: the theorem at empty batches from the initial engines; the
mMTC call returns, with the result computed explicitly. -/
theorem claim_C9_witness :
    ((EMBB.process_batch c9Oracle EMBB.init []).1.packets_dropped =
        (EMBB.process_batch c9Oracle EMBB.init []).2.dropped_packets ∧
      (EMBB.process_batch c9Oracle EMBB.init []).1.qos_violations =
        (EMBB.process_batch c9Oracle EMBB.init []).2.qos_violations ∧
      EMBB.init.processed_packets +
          (EMBB.process_batch c9Oracle EMBB.init []).1.packets_processed =
        (EMBB.process_batch c9Oracle EMBB.init []).2.processed_packets) ∧
    (c9Res.1.packets_dropped = c9Res.2.dropped_packets ∧
      c9Res.1.qos_violations = c9Res.2.qos_violations ∧
      MMTC.init.processed_packets + c9Res.1.packets_processed =
        c9Res.2.processed_packets) :=
  ⟨(claim_C9 c9Oracle EMBB.init MMTC.init [] []).1,
   (claim_C9 c9Oracle EMBB.init MMTC.init [] []).2 c9Res rfl⟩

/-! Claim C10. -/


/-- C10: every admitting iteration of the URLLC loop immediately pops the
least heap entry — the highest-priority resident (first conjunct: the popped
entry's stored key, the negated priority, is minimal); the queue length after
a process_batch call equals the length before plus the number of successfully
re-enqueued retransmissions (second conjunct; the third component of the
modelled call is that ghost count); and the packet processed need not be the
packet just admitted (third conjunct: admitting the priority-1 packet "new"
over the resident priority-9 packet "res" processes "res"). -/
theorem claim_C10 :
    (∀ (l : List (ℤ × ℕ × Pkt)) (m : ℤ × ℕ × Pkt) (r : List (ℤ × ℕ × Pkt)),
      URLLC.popMin l = some (m, r) → ∀ x ∈ l, m.1 ≤ x.1) ∧
    (∀ (o : Oracle) (s : URLLC.State) (b : List Pkt),
      (URLLC.process_batch o s b).2.1.priority_queue.heap.length =
        s.priority_queue.heap.length + (URLLC.process_batch o s b).2.2) ∧
    ((URLLC.process_batch c10Oracle c10State [c10New]).1.detailed_results.map
      (fun r => r.packet_id)) = [some "res"] := by
  refine ⟨fun l m r h x hx => popMin_min h x hx, fun o s b => ?_, by decide⟩
  obtain ⟨p1, -, -, p4, -, -, -⟩ := urllc_pb_proj o s b
  obtain ⟨-, f2, -, -, -, -⟩ := urllc_fold_spec o b (URLLC.mkAcc s)
  have e1 : (URLLC.mkAcc s).retransOk = 0 := rfl
  have e2 : (URLLC.mkAcc s).state = s := rfl
  rw [e1, e2] at f2
  rw [p1, p4]
  omega

/-- C10 witness: the pop-minimality conjunct applied at a concrete singleton
heap, and the length identity at a concrete call. -/
theorem claim_C10_witness :
    URLLC.popMin [((-9 : ℤ), 0, c10Resident)] =
      some (((-9 : ℤ), 0, c10Resident), []) ∧
    ((-9 : ℤ), 0, c10Resident).1 ≤ ((-9 : ℤ), 0, c10Resident).1 ∧
    (URLLC.process_batch c10Oracle URLLC.init []).2.1.priority_queue.heap.length =
      URLLC.init.priority_queue.heap.length +
        (URLLC.process_batch c10Oracle URLLC.init []).2.2 :=
  ⟨rfl,
   claim_C10.1 [((-9 : ℤ), 0, c10Resident)] ((-9 : ℤ), 0, c10Resident) [] rfl
     ((-9 : ℤ), 0, c10Resident) (by simp),
   claim_C10.2.1 c10Oracle URLLC.init []⟩

/-! Claim C3. -/


/-- Folding a replicated packet over the eMBB loop while the queue has room
admits every copy. -/
lemma embb_fold_replicate_admit (o : Oracle) (p : Pkt) : ∀ (n : ℕ) (a : EMBB.Acc),
    a.state.queue.length + n ≤ EMBB.queue_size →
    ((List.replicate n p).foldl (EMBB.step o) a).state.queue.length =
      a.state.queue.length + n ∧
    ((List.replicate n p).foldl (EMBB.step o) a).state.processed_packets =
      a.state.processed_packets + n ∧
    ((List.replicate n p).foldl (EMBB.step o) a).state.dropped_packets =
      a.state.dropped_packets := by
  intro n
  induction n with
  | zero =>
    intro a h
    simp
  | succ n ih =>
    intro a h
    rw [List.replicate_succ]
    simp only [List.foldl_cons]
    have hlt : a.state.queue.length < EMBB.queue_size := by omega
    obtain ⟨s1, hstep, hsq, hsp, hsd, hsv⟩ := embb_step_spare2 o a p hlt
    rw [hstep]
    obtain ⟨hq, hp, hd, -, -, -⟩ := embb_admit_spec o a p s1
    have hL : (EMBB.admitBody o a p s1).state.queue.length =
        a.state.queue.length + 1 := by
      rw [hq, hsq]
      simp
    obtain ⟨i1, i2, i3⟩ := ih (EMBB.admitBody o a p s1) (by omega)
    refine ⟨by omega, by omega, by omega⟩

/-- Folding a replicated packet over the eMBB loop with a full queue drops
every copy. -/
lemma embb_fold_replicate_drop (o : Oracle) (p : Pkt) : ∀ (n : ℕ) (a : EMBB.Acc),
    EMBB.queue_size ≤ a.state.queue.length →
    ((List.replicate n p).foldl (EMBB.step o) a).state.queue.length =
      a.state.queue.length ∧
    ((List.replicate n p).foldl (EMBB.step o) a).state.processed_packets =
      a.state.processed_packets ∧
    ((List.replicate n p).foldl (EMBB.step o) a).state.dropped_packets =
      a.state.dropped_packets + n := by
  intro n
  induction n with
  | zero =>
    intro a h
    simp
  | succ n ih =>
    intro a h
    rw [List.replicate_succ]
    simp only [List.foldl_cons]
    rw [embb_step_full o a p h]
    dsimp only
    obtain ⟨i1, i2, i3⟩ := ih
      { a with state := { a.state with dropped_packets := a.state.dropped_packets + 1 } }
      (by dsimp only; exact h)
    dsimp only at i1 i2 i3
    refine ⟨by omega, by omega, by omega⟩

/-- C3, counterexample to the claim as stated: the success rate uses the
cumulative lifetime counters, and cumulative drops can exceed cumulative
processed packets.  Fill the eMBB queue with one batch of 10000 packets (all
admitted, never dequeued), then send 20001 more: all are dropped, and the
second call reports success_rate = (10000 − 20001)/10000·100 < 0. -/
theorem claim_C3_counterexample :
    ((EMBB.process_batch c3Oracle
        (EMBB.process_batch c3Oracle EMBB.init (List.replicate 10000 c3Pkt)).2
        (List.replicate 20001 c3Pkt)).1).success_rate < 0 := by
  obtain ⟨pa1, pa2, pa3, -⟩ := embb_pb_proj c3Oracle EMBB.init (List.replicate 10000 c3Pkt)
  obtain ⟨fa1, fa2, fa3⟩ := embb_fold_replicate_admit c3Oracle c3Pkt 10000
    (EMBB.mkAcc EMBB.init) (by decide)
  have hs1len : (EMBB.process_batch c3Oracle EMBB.init
      (List.replicate 10000 c3Pkt)).2.queue.length = 10000 := by
    rw [pa1, fa1]
    decide
  have hs1p : (EMBB.process_batch c3Oracle EMBB.init
      (List.replicate 10000 c3Pkt)).2.processed_packets = 10000 := by
    rw [pa2, fa2]
    decide
  have hs1d : (EMBB.process_batch c3Oracle EMBB.init
      (List.replicate 10000 c3Pkt)).2.dropped_packets = 0 := by
    rw [pa3, fa3]
    decide
  obtain ⟨-, -, -, -, -, -, -, -, pb9, -⟩ := embb_pb_proj c3Oracle
    (EMBB.process_batch c3Oracle EMBB.init (List.replicate 10000 c3Pkt)).2
    (List.replicate 20001 c3Pkt)
  obtain ⟨ga1, ga2, ga3⟩ := embb_fold_replicate_drop c3Oracle c3Pkt 20001
    (EMBB.mkAcc (EMBB.process_batch c3Oracle EMBB.init (List.replicate 10000 c3Pkt)).2)
    (by
      have e : (EMBB.mkAcc (EMBB.process_batch c3Oracle EMBB.init
          (List.replicate 10000 c3Pkt)).2).state =
          (EMBB.process_batch c3Oracle EMBB.init (List.replicate 10000 c3Pkt)).2 := rfl
      rw [e, hs1len]
      decide)
  have e : (EMBB.mkAcc (EMBB.process_batch c3Oracle EMBB.init
      (List.replicate 10000 c3Pkt)).2).state =
      (EMBB.process_batch c3Oracle EMBB.init (List.replicate 10000 c3Pkt)).2 := rfl
  rw [e] at ga2 ga3
  rw [pb9, ga2, ga3, hs1p, hs1d]
  unfold rate100
  norm_num

/-- C3 (amended): for every engine and every sequence of calls from the
initial state, success_rate (reliability_index for URLLC) is at most 100 and
qos_compliance_rate lies in [0, 100]; both are exactly 0 (not NaN, not an
error) when the cumulative processed count is 0.  But success_rate has no
lower bound: it is negative as soon as cumulative drops exceed cumulative
processed packets (see the counterexample). -/
theorem claim_C3 (calls : List (Oracle × List Pkt)) (o : Oracle) (b : List Pkt) :
    ((EMBB.process_batch o (EMBB.runBatches calls EMBB.init) b).1.success_rate ≤ 100 ∧
     0 ≤ (EMBB.process_batch o (EMBB.runBatches calls EMBB.init) b).1.qos_compliance_rate ∧
     (EMBB.process_batch o (EMBB.runBatches calls EMBB.init) b).1.qos_compliance_rate ≤ 100 ∧
     ((EMBB.process_batch o (EMBB.runBatches calls EMBB.init) b).1.total_processed = 0 →
       (EMBB.process_batch o (EMBB.runBatches calls EMBB.init) b).1.success_rate = 0 ∧
       (EMBB.process_batch o (EMBB.runBatches calls EMBB.init) b).1.qos_compliance_rate = 0)) ∧
    ((URLLC.process_batch o (URLLC.runBatches calls URLLC.init) b).1.reliability_index ≤ 100 ∧
     0 ≤ (URLLC.process_batch o (URLLC.runBatches calls URLLC.init) b).1.qos_compliance_rate ∧
     (URLLC.process_batch o (URLLC.runBatches calls URLLC.init) b).1.qos_compliance_rate ≤ 100 ∧
     ((URLLC.process_batch o (URLLC.runBatches calls URLLC.init) b).1.total_processed = 0 →
       (URLLC.process_batch o (URLLC.runBatches calls URLLC.init) b).1.reliability_index = 0 ∧
       (URLLC.process_batch o (URLLC.runBatches calls URLLC.init) b).1.qos_compliance_rate = 0)) ∧
    (∀ r, MMTC.process_batch o (MMTC.runBatches calls MMTC.init) b = Except.ok r →
     r.1.success_rate ≤ 100 ∧
     0 ≤ r.1.qos_compliance_rate ∧
     r.1.qos_compliance_rate ≤ 100 ∧
     (r.1.total_processed = 0 →
       r.1.success_rate = 0 ∧ r.1.qos_compliance_rate = 0)) := by

  obtain ⟨he1, he2⟩ := embb_run_inv calls EMBB.init (by decide) (by decide)
  obtain ⟨hu1, hu2, hu3⟩ := urllc_run_inv calls URLLC.init (by decide) rfl (by decide)
  obtain ⟨hm1, hm2⟩ := mmtc_run_inv calls MMTC.init (by decide) (by decide)
  obtain ⟨-, pe2, pe3, pe4, -, -, -, pe8, pe9, pe10⟩ :=
    embb_pb_proj o (EMBB.runBatches calls EMBB.init) b
  obtain ⟨fe1, fe2, fe3, -⟩ :=
    embb_fold_spec o b (EMBB.mkAcc (EMBB.runBatches calls EMBB.init))
  have eE : (EMBB.mkAcc (EMBB.runBatches calls EMBB.init)).state =
      EMBB.runBatches calls EMBB.init := rfl
  rw [eE] at fe2
  obtain ⟨-, pu2, pu3, -, pu5, pu6, pu7⟩ :=
    urllc_pb_proj o (URLLC.runBatches calls URLLC.init) b
  obtain ⟨-, -, -, fu4, -, -⟩ :=
    urllc_fold_spec o b (URLLC.mkAcc (URLLC.runBatches calls URLLC.init))
  have eU : (URLLC.mkAcc (URLLC.runBatches calls URLLC.init)).state =
      URLLC.runBatches calls URLLC.init := rfl
  rw [eU] at fu4
  refine ⟨⟨?_, ?_, ?_, fun h0 => ⟨?_, ?_⟩⟩, ⟨?_, ?_, ?_, fun h0 => ⟨?_, ?_⟩⟩, ?_⟩
  · rw [pe9]
    exact rate100_le_100 _ _
  · rw [pe10]
    exact rate100_nonneg (by omega)
  · rw [pe10]
    exact rate100_le_100 _ _
  · rw [pe8] at h0
    rw [pe9, h0]
    exact rate100_zero _
  · rw [pe8] at h0
    rw [pe10, h0]
    exact rate100_zero _
  · rw [pu6]
    exact rate100_le_100 _ _
  · rw [pu7]
    exact rate100_nonneg (by omega)
  · rw [pu7]
    exact rate100_le_100 _ _
  · rw [pu5] at h0
    rw [pu6, h0]
    exact rate100_zero _
  · rw [pu5] at h0
    rw [pu7, h0]
    exact rate100_zero _
  · intro r hr
    obtain ⟨t, ha, rfl⟩ := mmtc_pb_ok_inv hr
    obtain ⟨-, q2, -, q4, -⟩ := mmtc_agg_ok_inv ha
    obtain ⟨-, pm2, -, pm4, -, -, -, -, -, -, pm11, pm12, pm13⟩ := mmtc_body_proj o t
    obtain ⟨-, fm2, -, -⟩ := mmtc_fold_spec o t.1 (MMTC.mkAcc t.2.1 t.2.2)
    have eM1 : (MMTC.mkAcc t.2.1 t.2.2).state.processed_packets =
        t.2.1.processed_packets := rfl
    have eM2 : (MMTC.mkAcc t.2.1 t.2.2).state.qos_violations =
        t.2.1.qos_violations := rfl
    rw [eM1, eM2, q2, q4] at fm2
    refine ⟨?_, ?_, ?_, fun h0 => ⟨?_, ?_⟩⟩
    · rw [pm12]
      exact rate100_le_100 _ _
    · rw [pm13]
      exact rate100_nonneg (by omega)
    · rw [pm13]
      exact rate100_le_100 _ _
    · rw [pm11] at h0
      rw [pm12, h0]
      exact rate100_zero _
    · rw [pm11] at h0
      rw [pm13, h0]
      exact rate100_zero _

/-! Claims C7 and C8: mMTC aggregation and device-registry machinery. -/

lemma mmtc_group_same_aux (o : Oracle) (d : String) :
    ∀ (ps : List Pkt), (∀ q ∈ ps, q.device_id = some d) →
    ∀ (l : List Pkt) (k : ℕ),
      ps.foldl (MMTC.groupStep o) ([(d, l)], k) = ([(d, l ++ ps)], k + ps.length) := by
  intro ps
  induction ps with
  | nil =>
    intro h l k
    simp
  | cons p rest ih =>
    intro h l k
    simp only [List.foldl_cons]
    have hp : p.device_id = some d := h p (List.mem_cons_self _ _)
    have hgs : MMTC.groupStep o ([(d, l)], k) p = ([(d, l ++ [p])], k + 1) := by
      simp [MMTC.groupStep, MMTC.groupAdd, hp]
    rw [hgs, ih (fun q hq => h q (List.mem_cons_of_mem _ hq)) (l ++ [p]) (k + 1)]
    simp only [Prod.mk.injEq]
    refine ⟨?_, by simp only [List.length_cons]; omega⟩
    simp [List.append_assoc]

lemma mmtc_group_same (o : Oracle) (d : String) (p0 : Pkt) (rest : List Pkt)
    (h : ∀ q ∈ p0 :: rest, q.device_id = some d) (k : ℕ) :
    (p0 :: rest).foldl (MMTC.groupStep o) ([], k) =
      ([(d, p0 :: rest)], k + (p0 :: rest).length) := by
  simp only [List.foldl_cons]
  have h0 : p0.device_id = some d := h p0 (List.mem_cons_self _ _)
  have hgs : MMTC.groupStep o ([], k) p0 = ([(d, [p0])], k + 1) := by
    simp [MMTC.groupStep, MMTC.groupAdd, h0]
  rw [hgs, mmtc_group_same_aux o d rest (fun q hq => h q (List.mem_cons_of_mem _ hq))
    [p0] (k + 1)]
  simp only [Prod.mk.injEq]
  refine ⟨?_, by simp only [List.length_cons]; omega⟩
  simp

/-- A batch whose packets all share one device id and whose first packet
carries a packet_id aggregates to the single combined record, bumping the
aggregated counter by N − 1. -/
lemma mmtc_agg_same (o : Oracle) (s : MMTC.State) (d pid : String) (ps : List Pkt)
    (h : ∀ q ∈ ps, q.device_id = some d) (h2 : 2 ≤ ps.length)
    (hid : (ps.headD {}).packet_id = some pid) (k : ℕ) :
    MMTC.aggregate_packets_by_device o s ps k =
      Except.ok ([MMTC.combinedPkt pid d ps],
       { s with aggregated_packets := s.aggregated_packets + (ps.length - 1) },
       k + ps.length) := by
  cases ps with
  | nil => simp at h2
  | cons p0 rest =>
    unfold MMTC.aggregate_packets_by_device
    rw [mmtc_group_same o d p0 rest h k]
    dsimp only
    have hstep : MMTC.aggStep ([], 0) (d, p0 :: rest) =
        Except.ok ([MMTC.combinedPkt pid d (p0 :: rest)], (p0 :: rest).length - 1) := by
      unfold MMTC.aggStep
      rw [if_pos (by simp only [List.length_cons] at h2 ⊢; omega)]
      dsimp only
      rw [hid]
      simp
    have hfold : MMTC.aggFold [(d, p0 :: rest)] ([], 0) =
        Except.ok ([MMTC.combinedPkt pid d (p0 :: rest)], (p0 :: rest).length - 1) := by
      simp only [MMTC.aggFold, hstep]
    rw [hfold]

/-- A singleton batch passes through aggregation unchanged (one draw is
consumed for the eager device-id default); the combine branch is never
reached, so the KeyError cannot fire. -/
lemma mmtc_agg_single (o : Oracle) (s : MMTC.State) (p : Pkt) (k : ℕ) :
    MMTC.aggregate_packets_by_device o s [p] k =
      Except.ok ([p], { s with aggregated_packets := s.aggregated_packets + 0 },
        k + 1) := rfl

lemma mmtc_reg_found (o : Oracle) (k : ℕ) (r : MMTC.Registry) (did : String)
    (dev : MMTC.Device) (h : r.devices.lookup did = some dev) :
    MMTC.register_or_get_device o k r did = Except.ok (dev, r, k) := by
  unfold MMTC.register_or_get_device
  rw [h]

lemma mmtc_reg_full (o : Oracle) (k : ℕ) (r : MMTC.Registry) (did : String)
    (h1 : r.devices.lookup did = none)
    (h2 : r.max_devices ≤ r.devices.length) :
    MMTC.register_or_get_device o k r did = Except.error () := by
  unfold MMTC.register_or_get_device
  rw [h1]
  dsimp only
  rw [if_pos h2]

lemma mmtc_reg_new (o : Oracle) (k : ℕ) (r : MMTC.Registry) (did : String)
    (h1 : r.devices.lookup did = none)
    (h2 : r.devices.length < r.max_devices) :
    MMTC.register_or_get_device o k r did = Except.ok
      (⟨did, MMTC.deviceTypes.getD (o.choiceIdx k % 3) "sensor", 0, "active"⟩,
       { r with devices := r.devices ++
          [(did, ⟨did, MMTC.deviceTypes.getD (o.choiceIdx k % 3) "sensor", 0,
            "active"⟩)] },
       k + 1) := by
  unfold MMTC.register_or_get_device
  rw [h1]
  dsimp only
  rw [if_neg (not_le.mpr h2)]

lemma mmtc_step_reject (o : Oracle) (a : MMTC.Acc) (p : Pkt) (d : String)
    (hd : p.device_id = some d)
    (h1 : a.state.device_registry.devices.lookup d = none)
    (h2 : a.state.device_registry.max_devices ≤
      a.state.device_registry.devices.length) :
    MMTC.step o a p = { a with
      state := { a.state with dropped_packets := a.state.dropped_packets + 1 },
      k := a.k + 1 } := by
  unfold MMTC.step
  dsimp only
  rw [hd]
  simp only [Option.getD_some]
  rw [mmtc_reg_full o (a.k + 1) _ d h1 h2]

lemma mmtc_step_admit_new (o : Oracle) (a : MMTC.Acc) (p : Pkt) (d : String)
    (hd : p.device_id = some d)
    (h1 : a.state.device_registry.devices.lookup d = none)
    (h2 : a.state.device_registry.devices.length <
      a.state.device_registry.max_devices)
    (hq : a.state.queue.length < MMTC.queue_size) :
    MMTC.step o a p = MMTC.admitBody o
      { a with
        devices_contacted := MMTC.addUnique a.devices_contacted d,
        k := a.k + 1 + 1 }
      p d
      ⟨d, MMTC.deviceTypes.getD (o.choiceIdx (a.k + 1) % 3) "sensor", 0, "active"⟩
      { a.state with
        device_registry := { a.state.device_registry with
          devices := a.state.device_registry.devices ++
            [(d, ⟨d, MMTC.deviceTypes.getD (o.choiceIdx (a.k + 1) % 3) "sensor", 0,
              "active"⟩)] },
        queue := a.state.queue ++ [p] } := by
  unfold MMTC.step
  dsimp only
  rw [hd]
  simp only [Option.getD_some]
  rw [mmtc_reg_new o (a.k + 1) _ d h1 h2]
  dsimp only
  rw [if_neg (not_le.mpr hq)]

lemma mmtc_step_admit_found (o : Oracle) (a : MMTC.Acc) (p : Pkt) (d : String)
    (dev : MMTC.Device)
    (hd : p.device_id = some d)
    (h1 : a.state.device_registry.devices.lookup d = some dev)
    (hq : a.state.queue.length < MMTC.queue_size) :
    MMTC.step o a p = MMTC.admitBody o
      { a with
        devices_contacted := MMTC.addUnique a.devices_contacted d,
        k := a.k + 1 }
      p d dev
      { a.state with
        device_registry := a.state.device_registry,
        queue := a.state.queue ++ [p] } := by
  unfold MMTC.step
  dsimp only
  rw [hd]
  simp only [Option.getD_some]
  rw [mmtc_reg_found o (a.k + 1) _ d dev h1]
  dsimp only
  rw [if_neg (not_le.mpr hq)]

/-- C7, counterexample to the claim as stated: the combined record's id is
read by plain indexing `device_packet_list[0]["packet_id"]`, so a two-packet
same-device batch whose first packet lacks a packet_id makes process_batch
raise instead of aggregating: no combined entry is admitted and the
aggregated counter at the raise grows by 0, not N − 1. -/
theorem claim_C7_counterexample :
    MMTC.process_batch c7Oracle MMTC.init [c7NoId1, c7NoId2] =
      Except.error { MMTC.init with aggregated_packets :=
        MMTC.init.aggregated_packets + 0 } := rfl

/-- C7 (amended): with aggregation enabled, a batch of N > 1 packets all
carrying one device id, whose first packet carries a packet_id, aggregates
into exactly one combined entry of summed size, bumps the aggregated counter
by exactly N − 1, and the combined entry alone is admitted: the call
returns, processed grows by 1, dropped is unchanged.  (Without the
packet_id, the call raises — see the counterexample.) -/
theorem claim_C7 (o : Oracle) (s : MMTC.State) (d pid : String) (ps : List Pkt)
    (hall : ∀ q ∈ ps, q.device_id = some d)
    (hN : 2 ≤ ps.length)
    (hid : (ps.headD {}).packet_id = some pid)
    (hq : s.queue.length < MMTC.queue_size)
    (hnew : s.device_registry.devices.lookup d = none)
    (hroom : s.device_registry.devices.length < s.device_registry.max_devices) :
    ∃ r, MMTC.process_batch o s ps = Except.ok r ∧
      r.2.aggregated_packets = s.aggregated_packets + (ps.length - 1) ∧
      r.1.packets_aggregated = s.aggregated_packets + (ps.length - 1) ∧
      r.2.queue = s.queue ++ [MMTC.combinedPkt pid d ps] ∧
      (MMTC.combinedPkt pid d ps).size =
        some ((ps.map (fun q => q.size.getD 100)).sum) ∧
      r.1.packets_processed = 1 ∧
      r.2.processed_packets = s.processed_packets + 1 ∧
      r.2.dropped_packets = s.dropped_packets := by
  have hpb : MMTC.process_batch o s ps = Except.ok (MMTC.batchBody o
      ([MMTC.combinedPkt pid d ps],
       { s with aggregated_packets := s.aggregated_packets + (ps.length - 1) },
       0 + ps.length)) := by
    unfold MMTC.process_batch
    simp only [MMTC.aggregation_enabled, if_true,
      mmtc_agg_same o s d pid ps hall hN hid 0]
  obtain ⟨p1, p2, p3, -, p5, -, p7, -, -, p10, -, -, -⟩ := mmtc_body_proj o
    ([MMTC.combinedPkt pid d ps],
     { s with aggregated_packets := s.aggregated_packets + (ps.length - 1) },
     0 + ps.length)
  dsimp only at p1 p2 p3 p5 p7 p10
  simp only [List.foldl_cons, List.foldl_nil] at p1 p2 p3 p5 p7 p10
  rw [mmtc_step_admit_new o
      (MMTC.mkAcc { s with aggregated_packets := s.aggregated_packets + (ps.length - 1) }
        (0 + ps.length))
      (MMTC.combinedPkt pid d ps) d rfl hnew hroom hq] at p1 p2 p3 p5 p7 p10
  rw [(mmtc_admit_spec o _ _ _ _ _).1] at p1
  rw [(mmtc_admit_spec o _ _ _ _ _).2.1] at p2
  rw [(mmtc_admit_spec o _ _ _ _ _).2.2.1] at p3
  rw [(mmtc_admit_spec o _ _ _ _ _).2.2.2.2.2.2.2] at p5
  rw [(mmtc_admit_spec o _ _ _ _ _).2.2.2.1] at p7
  rw [(mmtc_admit_spec o _ _ _ _ _).2.2.2.2.2.2.2] at p10
  exact ⟨_, hpb, p5.trans rfl, p10.trans rfl, p1.trans rfl, rfl, p7.trans rfl,
    p2.trans rfl, p3.trans rfl⟩

/-- C7 witness: two same-device packets (the first carrying id "a1") into the
fresh engine. -/
theorem claim_C7_witness :
    ∃ r, MMTC.process_batch c7Oracle MMTC.init [c7p1, c7p2] = Except.ok r ∧
      r.2.aggregated_packets =
        MMTC.init.aggregated_packets + ([c7p1, c7p2].length - 1) ∧
      r.1.packets_aggregated =
        MMTC.init.aggregated_packets + ([c7p1, c7p2].length - 1) ∧
      r.2.queue = MMTC.init.queue ++ [MMTC.combinedPkt "a1" "dev7" [c7p1, c7p2]] ∧
      (MMTC.combinedPkt "a1" "dev7" [c7p1, c7p2]).size =
        some (([c7p1, c7p2].map (fun q => q.size.getD 100)).sum) ∧
      r.1.packets_processed = 1 ∧
      r.2.processed_packets = MMTC.init.processed_packets + 1 ∧
      r.2.dropped_packets = MMTC.init.dropped_packets :=
  claim_C7 c7Oracle MMTC.init "dev7" "a1" [c7p1, c7p2] (by decide) (by decide) rfl
    (by decide) rfl (by decide)

/-- C8: when the device registry is at capacity, a single-packet batch with an
unseen device id is rejected: the call returns (the OverflowError is caught
inside process_batch), dropped grows by one, and the queue, the processed
counter and the registry are untouched; a packet whose device id is already
registered is unaffected by the registry being full and is admitted as
usual. -/
theorem claim_C8 (o : Oracle) (s : MMTC.State) (p q : Pkt) (d e : String)
    (dev : MMTC.Device)
    (hpd : p.device_id = some d)
    (h1 : s.device_registry.devices.lookup d = none)
    (h2 : s.device_registry.max_devices ≤ s.device_registry.devices.length)
    (hqe : q.device_id = some e)
    (h3 : s.device_registry.devices.lookup e = some dev)
    (h4 : s.queue.length < MMTC.queue_size) :
    (∃ r1, MMTC.process_batch o s [p] = Except.ok r1 ∧
      r1.2.dropped_packets = s.dropped_packets + 1 ∧
      r1.2.queue = s.queue ∧
      r1.2.processed_packets = s.processed_packets ∧
      r1.2.device_registry = s.device_registry) ∧
    (∃ r2, MMTC.process_batch o s [q] = Except.ok r2 ∧
      r2.2.processed_packets = s.processed_packets + 1 ∧
      r2.2.dropped_packets = s.dropped_packets ∧
      r2.2.queue = s.queue ++ [q]) := by
  constructor
  · have hpb : MMTC.process_batch o s [p] = Except.ok (MMTC.batchBody o
        ([p], { s with aggregated_packets := s.aggregated_packets + 0 }, 0 + 1)) := by
      unfold MMTC.process_batch
      simp only [MMTC.aggregation_enabled, if_true, mmtc_agg_single o s p 0]
    obtain ⟨p1, p2, p3, -, -, p6, -, -, -, -, -, -, -⟩ := mmtc_body_proj o
      ([p], { s with aggregated_packets := s.aggregated_packets + 0 }, 0 + 1)
    dsimp only at p1 p2 p3 p6
    simp only [List.foldl_cons, List.foldl_nil] at p1 p2 p3 p6
    rw [mmtc_step_reject o
        (MMTC.mkAcc { s with aggregated_packets := s.aggregated_packets + 0 } (0 + 1))
        p d hpd h1 h2] at p1 p2 p3 p6
    exact ⟨_, hpb, p3.trans rfl, p1.trans rfl, p2.trans rfl, p6.trans rfl⟩
  · have hpb : MMTC.process_batch o s [q] = Except.ok (MMTC.batchBody o
        ([q], { s with aggregated_packets := s.aggregated_packets + 0 }, 0 + 1)) := by
      unfold MMTC.process_batch
      simp only [MMTC.aggregation_enabled, if_true, mmtc_agg_single o s q 0]
    obtain ⟨p1, p2, p3, -, -, -, -, -, -, -, -, -, -⟩ := mmtc_body_proj o
      ([q], { s with aggregated_packets := s.aggregated_packets + 0 }, 0 + 1)
    dsimp only at p1 p2 p3
    simp only [List.foldl_cons, List.foldl_nil] at p1 p2 p3
    rw [mmtc_step_admit_found o
        (MMTC.mkAcc { s with aggregated_packets := s.aggregated_packets + 0 } (0 + 1))
        q e dev hqe h3 h4] at p1 p2 p3
    rw [(mmtc_admit_spec o _ _ _ _ _).1] at p1
    rw [(mmtc_admit_spec o _ _ _ _ _).2.1] at p2
    rw [(mmtc_admit_spec o _ _ _ _ _).2.2.1] at p3
    exact ⟨_, hpb, p2.trans rfl, p3.trans rfl, p1.trans rfl⟩

lemma lookup_none_of_keys_ne {β : Type} (k : String) :
    ∀ l : List (String × β), (∀ x ∈ l, x.1 ≠ k) → l.lookup k = none := by
  intro l
  induction l with
  | nil => intro h; rfl
  | cons x rest ih =>
    intro h
    obtain ⟨x1, x2⟩ := x
    have hx : x1 ≠ k := h (x1, x2) (List.mem_cons_self _ _)
    have hb : (k == x1) = false := by
      rw [beq_eq_false_iff_ne]
      exact fun hkx => hx hkx.symm
    simp only [List.lookup, hb]
    exact ih (fun y hy => h y (List.mem_cons_of_mem _ hy))

lemma bigName_ne_b (i : ℕ) : bigName i ≠ "b" := by
  unfold bigName
  intro h
  have hd : List.replicate (i + 1) 'a' = "b".data := congrArg String.data h
  have hb : 'b' ∈ List.replicate (i + 1) 'a' := by
    rw [hd]
    decide
  exact absurd (List.eq_of_mem_replicate hb) (by decide)

lemma c8_lookup_b : c8State.device_registry.devices.lookup "b" = none := by
  apply lookup_none_of_keys_ne
  intro x hx
  simp only [c8State, MMTC.init, List.mem_cons] at hx
  rcases hx with rfl | hx2
  · decide
  · obtain ⟨i, -, rfl⟩ := List.mem_map.mp hx2
    exact bigName_ne_b i

lemma c8_lookup_k : c8State.device_registry.devices.lookup "k" = some someDev := rfl

/-- C8 witness: the theorem at the capacity-full registry, with the unseen id
"b" and the registered id "k". -/
theorem claim_C8_witness :
    (∃ r1, MMTC.process_batch c8Oracle c8State [c8New] = Except.ok r1 ∧
      r1.2.dropped_packets = c8State.dropped_packets + 1 ∧
      r1.2.queue = c8State.queue ∧
      r1.2.processed_packets = c8State.processed_packets ∧
      r1.2.device_registry = c8State.device_registry) ∧
    (∃ r2, MMTC.process_batch c8Oracle c8State [c8Old] = Except.ok r2 ∧
      r2.2.processed_packets = c8State.processed_packets + 1 ∧
      r2.2.dropped_packets = c8State.dropped_packets ∧
      r2.2.queue = c8State.queue ++ [c8Old]) :=
  claim_C8 c8Oracle c8State c8New c8Old "b" "k" someDev rfl c8_lookup_b
    (by
      show MMTC.device_limit ≤ (("k", someDev) :: bigDevs 100000).length
      rw [List.length_cons, bigDevs, List.length_map, List.length_range]
      decide) rfl c8_lookup_k
    (by decide)

/-- C3 witness: the amended theorem at the empty call sequence and an empty
batch, where the processed count is 0 and both rates are exactly 0 (the mMTC
call returns, with the result computed explicitly). -/
theorem claim_C3_witness :
    (EMBB.process_batch c3Oracle (EMBB.runBatches [] EMBB.init) []).1.success_rate = 0 ∧
    (URLLC.process_batch c3Oracle (URLLC.runBatches [] URLLC.init)
      []).1.reliability_index = 0 ∧
    c3Res.1.qos_compliance_rate = 0 :=
  ⟨((claim_C3 [] c3Oracle []).1.2.2.2 (by decide)).1,
   ((claim_C3 [] c3Oracle []).2.1.2.2.2 (by decide)).1,
   (((claim_C3 [] c3Oracle []).2.2 c3Res rfl).2.2.2 (by decide)).2⟩

end NetSlice
